import Mathlib

/-!
# Zenroom ECDH keyring: a shallow embedding of `zen_ecdh.c`

The development embeds the keyring module of the repository
(`src/zen_ecdh.c`, `src/zen_ecdh.h`, `src/zen_octet.h`,
`src/zen_ecdh_factory_wolfssl.c`) as Lean functions over an explicit Lua stack.

Conventions of the embedding

* A `lua_State` is the stack of the running C function, bottom first; index `n`
  of the Lua API is position `n - 1` of the list.
* A pointer to a userdata that lives on the stack (`octet *pk = o_new(L, n)`,
  `ecdh *e = ecdh_arg(L, 1)`) is the stack index of that userdata; a write
  through the pointer is a write to that stack slot.
* The key fields `e->seckey` and `e->pubkey` hold the content of the octet they
  point to, `none` standing for `NULL`; the identity of that octet is not kept
  (see `ecdh`).
* Values of C type `int` are integers; where the source computes in `int` or
  assigns a `lua_Integer` to an `int` the result goes through `c_int`.
* `lerror` is a Lua error: it leaves the C function at once. A result is
  therefore either `Res.ok n L` (the function returned `n`, its results are
  the top `n` stack values of `L`) or `Res.raised err L` (nothing is returned,
  `L` is the state at the moment of the error).
* Third-party primitives (AMCL, wolfSSL) are fields of `Build`, together with
  the `STANDALONE` compile-time switch; entropy and time are fields of `Env`.
* `SAFE(x)` is written out where `x` can be `NULL` in the embedding (the
  result of `ecdh_new_curve` and of `ecdh_new`); after `ecdh_arg`, `o_arg` and
  `o_new`, whose results are never `NULL` here, it is a no-op and is left out.
* Logging (`HERE`, `ERROR`, `func`, `error`) has no effect on the state and is
  left out.
-/

namespace Zenroom

/-! ## Data model -/

/-- Octet of `zen_octet.h`: used length, capacity and byte array. -/
structure octet where
  len : Int
  max : Int
  val : List Nat
deriving DecidableEq, Repr

/-- C type `int` (32 bits, complement of two): the value an `int` expression
takes on the usual targets, where a sum past `INT_MAX` wraps around, and the
value a wider integer (`lua_Integer`) takes when it is assigned to an `int`. -/
def c_int (x : Int) : Int :=
  (x + 2 ^ 31) % 2 ^ 32 - 2 ^ 31

/-- Generator state behind `RNGTYPE *` (`csprng` or `WC_RNG`), kept abstract as bytes. -/
abbrev RNGTYPE := List Nat

/-- Keyring record `ecdh` of `zen_ecdh.h`. A function pointer is a Lean function
from the values read through its pointer arguments to its return code and the
values written through them: `ECP__KEY_PAIR_GENERATE(R, s, W)` reads and writes
the generator and `s`, and writes `W`; `ECP__SVDP_DH(s, W, K)` reads `s`
(possibly `NULL`) and `W`, and writes `K`.

The slots `pubkey` and `seckey` are pointers to octets in C; here a slot holds
the content of the octet it points to (`none` for `NULL`). Two pointers to one
octet are not told apart from two octets of equal content: a write through a
pointer shows in another holder of that octet only where a method applies it
(`ecdh_private` applies the write of the backend through `e->seckey` to the
secret slot and to the argument at index 2). A call that is handed, as an
argument, the very octet a slot already points to is outside this model. -/
structure ecdh where
  ECP__KEY_PAIR_GENERATE :
    Option RNGTYPE → octet → octet → Int × Option RNGTYPE × octet × octet
  ECP__PUBLIC_KEY_VALIDATE : octet → Int
  ECP__SVDP_DH : Option octet → octet → octet → Int × octet
  ECP__ECIES_ENCRYPT :
    Int → octet → octet → Option RNGTYPE → octet → octet → Int →
      octet → octet → octet → octet × octet × octet
  ECP__ECIES_DECRYPT :
    Int → octet → octet → octet → octet → octet → octet → octet → Int × octet
  ECP__SP_DSA :
    Int → Option RNGTYPE → octet → octet → octet → octet → octet → Int × octet × octet
  ECP__VP_DSA : Int → octet → octet → octet → octet → Int
  rng : Option RNGTYPE
  keysize : Int
  fieldsize : Int
  hash : Int
  curve : List Char
  type : List Char
  pubkey : Option octet
  publen : Int
  seckey : Option octet
  seclen : Int

/-- Values that can sit on the Lua stack. `octet` and `ecdh` are userdata
carrying the metatables `zenroom.octet` and `zenroom.ecdh`; `userdata` is a
block fresh from `lua_newuserdata`, before a metatable is attached. -/
inductive LuaValue where
  | nil
  | boolean (b : Bool)
  | integer (n : Int)
  | string (s : String)
  | octet (o : Zenroom.octet)
  | ecdh (e : Zenroom.ecdh)
  | userdata (e : Zenroom.ecdh)

/-- Stack of the running C function, bottom first. -/
structure lua_State where
  stack : List LuaValue

/-- Errors a C function can leave with. `lerror msg` is `lerror(L, fmt, ...)`
with the format expanded; `SAFE func` is the `SAFE(x)` check hitting `NULL`
inside `func`; `argerror n tname` is `luaL_checkudata`, `luaL_optinteger` or
`luaL_optstring` rejecting argument `n`; `TypeMismatch n` is `o_arg` rejecting
argument `n`. -/
inductive ZenError where
  | lerror (msg : String)
  | SAFE (func : String)
  | argerror (n : Nat) (tname : String)
  | TypeMismatch (n : Nat)
deriving DecidableEq, Repr

/-- Outcome of running a piece of C code on a Lua state. -/
inductive Res (α : Type) where
  | ok (a : α) (L : lua_State)
  | raised (err : ZenError) (L : lua_State)

/-- State the code stopped in, whether it returned or raised. -/
def Res.state {α : Type} : Res α → lua_State
  | .ok _ L => L
  | .raised _ L => L

/-- Values handed back to the caller: the top `n` stack values when the
function returned `n`, nothing when it raised. -/
def Res.values : Res Int → List LuaValue
  | .ok n L => L.stack.drop (L.stack.length - n.toNat)
  | .raised _ _ => []

/-- Computations over the Lua state that may raise. -/
abbrev LuaM (α : Type) := lua_State → Res α

/-- Sequencing: an error skips the rest, keeping the state it was raised in. -/
def LuaM.bind {α β : Type} (m : LuaM α) (f : α → LuaM β) : LuaM β :=
  fun L =>
    match m L with
    | .ok a L1 => f a L1
    | .raised err L1 => .raised err L1

instance : Monad LuaM where
  pure a := fun L => .ok a L
  bind := LuaM.bind

/-! ## Lua API -/

/-- Value at stack index `n` (1-based), `none` past the top. -/
def index2value (L : lua_State) (n : Nat) : Option LuaValue :=
  if n = 0 then none else L.stack.get? (n - 1)

/-- Keyring a method runs on: the `zenroom.ecdh` userdata at index 1. -/
def keyring (L : lua_State) : Option ecdh :=
  match index2value L 1 with
  | some (.ecdh e) => some e
  | _ => none

/-- Read of the whole state, for the pure queries below. -/
def getL : LuaM lua_State := fun L => .ok L L

/-- Lua macro `lua_isnoneornil(L, n)`. -/
def lua_isnoneornil (L : lua_State) (n : Nat) : Bool :=
  match index2value L n with
  | none => true
  | some .nil => true
  | some _ => false

/-- Name of the metatable a value carries, if any. -/
def LuaValue.tname : LuaValue → Option String
  | .octet _ => some "zenroom.octet"
  | .ecdh _ => some "zenroom.ecdh"
  | _ => none

/-- Lua call `luaL_testudata(L, n, tname)`: the userdata at `n` when it carries
metatable `tname`, `NULL` otherwise. -/
def luaL_testudata (L : lua_State) (n : Nat) (tname : String) : Option LuaValue :=
  match index2value L n with
  | some v => if v.tname = some tname then some v else none
  | none => none

/-- Push of one value (`lua_pushboolean`, `lua_newuserdata`, ...). -/
def lua_push (v : LuaValue) : LuaM Unit :=
  fun L => .ok () { stack := L.stack ++ [v] }

/-- Lua call `lua_pushboolean(L, b)`: any non-zero `b` is true. -/
def lua_pushboolean (b : Int) : LuaM Unit :=
  lua_push (.boolean (b != 0))

/-- Lua call `lua_pop(L, n)`: drops the top `n` values. -/
def lua_pop (n : Nat) : LuaM Unit :=
  fun L => .ok () { stack := Nat.iterate List.dropLast n L.stack }

/-- Write through a pointer to the userdata at stack index `p`. -/
def store (p : Nat) (v : LuaValue) : LuaM Unit :=
  fun L => .ok () { stack := L.stack.set (p - 1) v }

/-- Lua call `luaL_optinteger(L, n, d)`: `d` for an absent or nil argument, the
integer otherwise (a string is converted when it reads as a decimal integer). -/
def luaL_optinteger (n : Nat) (d : Int) : LuaM Int :=
  fun L =>
    match index2value L n with
    | none => .ok d L
    | some .nil => .ok d L
    | some (.integer i) => .ok i L
    | some (.string s) =>
        match s.toInt? with
        | some i => .ok i L
        | none => .raised (.argerror n "number") L
    | some _ => .raised (.argerror n "number") L

/-- Lua call `luaL_optstring(L, n, d)`: `d` for an absent or nil argument, the
string otherwise (an integer is converted to its decimal text). -/
def luaL_optstring (n : Nat) (d : String) : LuaM String :=
  fun L =>
    match index2value L n with
    | none => .ok d L
    | some .nil => .ok d L
    | some (.string s) => .ok s L
    | some (.integer i) => .ok (toString i) L
    | some _ => .raised (.argerror n "string") L

/-! ## Error helpers and octet helpers (not under `src/`) -/

/-- Modelled from the spec: `lerror` of `zen_error.c` is absent. Section 6 of
the spec has the core raise a structured failure that halts the offending
script, so `lerror` is a Lua error: control leaves the C function, the state is
kept as it is, and no value is returned. -/
def lerror {α : Type} (msg : String) : LuaM α :=
  fun L => .raised (.lerror msg) L

/-- Modelled from the spec: the `SAFE` macro of `zen_error.h` is absent. It
guards a pointer; on `NULL` the operation fails (section 7, fail fast), naming
the function it sits in. -/
def SAFE {α : Type} (func : String) (x : Option α) : LuaM α :=
  fun L =>
    match x with
    | some a => .ok a L
    | none => .raised (.SAFE func) L

/-- Text that `KEYPROT` hands to `lerror`; the failure the spec calls `KeyAlreadySet`. -/
def KEYPROT_msg : String := "Zenroom won\x27t overwrite. Use a .new() instance."

/-- Macro `KEYPROT(alg, key)` of `zen_ecdh.c`: logs through `error` and then
calls `lerror` with the fixed text below. -/
def KEYPROT (_alg : List Char) (_key : String) : LuaM Unit :=
  lerror KEYPROT_msg

/-- Modelled from the spec: `o_new` of `zen_octet.c` is absent. Section 4.2:
`new(capacity)` allocates a buffer of the given capacity, length zero; the
header adds that it pushes the object on the stack. Allocation is taken to
succeed. Returns the stack index of the new userdata and its initial value. -/
def o_new (size : Int) : LuaM (Nat × octet) :=
  fun L =>
    let o : octet := { len := 0, max := size, val := [] }
    .ok (L.stack.length + 1, o) { stack := L.stack ++ [.octet o] }

/-- Modelled from the spec: `o_dup` of `zen_octet.c` is absent. Section 4.2:
`duplicate(buf)` creates a new buffer with identical length and content,
capacity equal to length; like `o_new` it pushes the new object. -/
def o_dup (o : octet) : LuaM (Nat × octet) :=
  fun L =>
    let d : octet := { len := o.len, max := o.len, val := o.val }
    .ok (L.stack.length + 1, d) { stack := L.stack ++ [.octet d] }

/-- Modelled from the spec: `o_arg` of `zen_octet.c` is absent. Section 4.2:
the argument conversion accepts a buffer or an externally represented byte
value (a string, one byte per character) and rejects anything else with
`TypeMismatch`. -/
def o_arg (n : Nat) : LuaM octet :=
  fun L =>
    match index2value L n with
    | some (.octet o) => .ok o L
    | some (.string s) =>
        .ok { len := s.length, max := s.length, val := s.toList.map Char.toNat } L
    | _ => .raised (.TypeMismatch n) L

/-- Modelled from the spec: `OCT_comp` of the curve library is absent.
Section 4.2: equality is exact byte-for-byte comparison including length. -/
def OCT_comp (a b : octet) : Bool :=
  a.len == b.len && a.val.take a.len.toNat == b.val.take b.len.toNat

/-- Function `ecdh_arg(L, n)`: `luaL_checkudata` against `zenroom.ecdh`. -/
def ecdh_arg (n : Nat) : LuaM ecdh :=
  fun L =>
    match luaL_testudata L n "zenroom.ecdh" with
    | some (.ecdh e) => .ok e L
    | _ => .raised (.argerror n "zenroom.ecdh") L

/-! ## Build configuration and third-party primitives -/

/-- AES context of wolfSSL, reduced to the key it was set up with. -/
abbrev Aes := List Nat

/-- What the platform hands out during one call of `ecdh_new`: entropy, the
clock, and the outcome of `wc_InitRng` (return code and generator state). -/
structure Env where
  /-- Byte `i` of the `n` bytes that `randombytes(buf, n)` writes. -/
  randombytes : (n : Nat) → Fin n → Nat
  GET_TIME : Nat
  wc_InitRng : Int × RNGTYPE

/-- Compile-time switch and the third-party primitives the module calls. A
primitive maps what it reads to its return code and what it writes. -/
structure Build where
  STANDALONE : Bool
  /-- Value of `ECDH_INVALID_PUBLIC_KEY` in the curve library header, used when
  `STANDALONE` is off. -/
  AMCL_ECDH_INVALID_PUBLIC_KEY : Int
  /-- Constants `CURVE25519_KEYSIZE` and `SHA512_BLOCK_SIZE` of the wolfSSL headers. -/
  CURVE25519_KEYSIZE : Int
  SHA512_BLOCK_SIZE : Int
  RAND_seed : Int → List Nat → RNGTYPE
  AES_CBC_IV0_ENCRYPT : octet → octet → octet → octet
  AES_CBC_IV0_DECRYPT : octet → octet → octet → Int × octet
  AES_GCM_ENCRYPT : octet → octet → octet → octet → octet → octet → octet × octet
  AES_GCM_DECRYPT : octet → octet → octet → octet → octet → octet → octet × octet
  wc_AesCbcEncryptWithKey :
    List Nat → List Nat → Int → List Nat → Int → List Nat → Int × List Nat
  wc_AesGcmSetKey : List Nat → Int → Aes
  wc_AesGcmEncrypt :
    Aes → List Nat → List Nat → Int → List Nat → Int → List Nat → Int →
      List Nat → Int → Int × List Nat × List Nat
  wc_AesGcmDecrypt :
    Aes → List Nat → List Nat → Int → List Nat → Int → List Nat → Int →
      List Nat → Int → Int × List Nat
  HASH : Int → octet → octet → octet
  HMAC : Int → octet → octet → Int → octet → Int × octet
  KDF2 : Int → octet → octet → Int → octet → octet
  PBKDF2 : Int → octet → octet → Int → Int → octet → octet
  OCT_rand : octet → Option RNGTYPE → Int → octet × Option RNGTYPE

/-- Constant `ECDH_INVALID_PUBLIC_KEY`: `-13` from `zen_ecdh.h` under
`STANDALONE`, the curve library's value otherwise. -/
def ECDH_INVALID_PUBLIC_KEY (B : Build) : Int :=
  if B.STANDALONE then -13 else B.AMCL_ECDH_INVALID_PUBLIC_KEY

/-! ## Backend of `zen_ecdh_factory_wolfssl.c` -/

/-- Stub `wolfcrypt_ed25519_keypair_generate`: writes nothing, returns 0. -/
def wolfcrypt_ed25519_keypair_generate (R : Option RNGTYPE) (s W : octet) :
    Int × Option RNGTYPE × octet × octet :=
  (0, R, s, W)

/-- Stub `wolfcrypt_ed25519_public_key_validate`: returns 0 for every octet. -/
def wolfcrypt_ed25519_public_key_validate (_W : octet) : Int := 0

/-- Stub `wolfcrypt_ed25519_svdp_dh`: writes nothing to `K`, returns 0. -/
def wolfcrypt_ed25519_svdp_dh (_s : Option octet) (_W : octet) (K : octet) : Int × octet :=
  (0, K)

/-- Stub `wolfcrypt_ed25519_ecies_encrypt`: empty body, writes nothing. -/
def wolfcrypt_ed25519_ecies_encrypt (_h : Int) (_P1 _P2 : octet) (_R : Option RNGTYPE)
    (_W _M : octet) (_len : Int) (V C T : octet) : octet × octet × octet :=
  (V, C, T)

/-- Stub `wolfcrypt_ed25519_ecies_decrypt`: empty body, writes nothing. The C
function is `void`; the record field it is assigned to returns `int`, and the
code 0 stands for that unspecified value. No keyring method calls it. -/
def wolfcrypt_ed25519_ecies_decrypt (_h : Int) (_P1 _P2 _V _C _T _U : octet) (M : octet) :
    Int × octet :=
  (0, M)

/-- Stub `wolfcrypt_ed25519_sp_dsa`: writes nothing, returns 0. -/
def wolfcrypt_ed25519_sp_dsa (_h : Int) (_R : Option RNGTYPE) (_k _s _M : octet)
    (c d : octet) : Int × octet × octet :=
  (0, c, d)

/-- Stub `wolfcrypt_ed25519_vp_dsa`: returns 0. -/
def wolfcrypt_ed25519_vp_dsa (_h : Int) (_W _M _c _d : octet) : Int := 0

/-- Terminator of a C string. -/
def NUL : Char := Char.ofNat 0

/-- C string held in a character array: the characters before the first NUL. -/
def cstr (s : List Char) : List Char := s.takeWhile (· ≠ NUL)

/-- Function `strcasecmp` of libc: compares byte by byte after `tolower`, the
end of the array reading as the terminating NUL; 0 when the strings agree up to
letter case, the difference of the first mismatching pair otherwise. -/
def strcasecmp : List Char → List Char → Int
  | [], [] => 0
  | [], b :: _ => 0 - (b.toLower.toNat : Int)
  | a :: _, [] => (a.toLower.toNat : Int) - 0
  | a :: as, b :: bs =>
      if a.toLower ≠ b.toLower then (a.toLower.toNat : Int) - (b.toLower.toNat : Int)
      else if a.toLower = NUL then 0
      else strcasecmp as bs

/-- Test at the head of `ecdh_new_curve`: the name is one of the three
spellings of curve 25519, compared with `strcasecmp`. -/
def curve_supported (curve : List Char) : Bool :=
  strcasecmp curve "ec25519".toList = 0
    || strcasecmp curve "ed25519".toList = 0
    || strcasecmp curve "25519".toList = 0

/-- Record that `ecdh_new_curve` fills in for curve 25519: sizes, the seven
function pointers, `strncpy(e->curve, curve, 15)` and `strcpy(e->type,
"edwards")`. The fields it does not touch (`rng`, `pubkey`, `publen`, `seckey`,
`seclen`) read `NULL` and 0 here; `ecdh_new` assigns every one of them. -/
def ecdh_curve25519 (B : Build) (curve : List Char) : ecdh :=
  { keysize := B.CURVE25519_KEYSIZE
    fieldsize := 2 * B.CURVE25519_KEYSIZE
    hash := B.SHA512_BLOCK_SIZE
    ECP__KEY_PAIR_GENERATE := wolfcrypt_ed25519_keypair_generate
    ECP__PUBLIC_KEY_VALIDATE := wolfcrypt_ed25519_public_key_validate
    ECP__SVDP_DH := wolfcrypt_ed25519_svdp_dh
    ECP__ECIES_ENCRYPT := wolfcrypt_ed25519_ecies_encrypt
    ECP__ECIES_DECRYPT := wolfcrypt_ed25519_ecies_decrypt
    ECP__SP_DSA := wolfcrypt_ed25519_sp_dsa
    ECP__VP_DSA := wolfcrypt_ed25519_vp_dsa
    curve := (cstr curve).take 15
    type := "edwards".toList
    rng := none
    pubkey := none
    publen := 0
    seckey := none
    seclen := 0 }

/-- Function `ecdh_new_curve` of the wolfSSL factory. On a supported name it
allocates the record with `lua_newuserdata` (left on the stack, no metatable
yet) and fills it in; otherwise it logs and returns `NULL`. Returns the stack
index of the record and its value, or `none` for `NULL`. -/
def ecdh_new_curve (B : Build) (curve : List Char) : LuaM (Option (Nat × ecdh)) := do
  if curve_supported curve then
    let e := ecdh_curve25519 B curve
    lua_push (.userdata e)
    let L ← getL
    return some (L.stack.length, e)
  else
    return none

/-- Seed buffer `tmp` of `ecdh_new`: 252 bytes from `randombytes`, then the
32-bit `GET_TIME()` value, most significant byte first. -/
def ecdh_seed (W : Env) : List Nat :=
  let ttmp := W.GET_TIME % 2 ^ 32
  List.ofFn (W.randombytes 252) ++
    [ (ttmp >>> 24) &&& 0xff, (ttmp >>> 16) &&& 0xff, (ttmp >>> 8) &&& 0xff, ttmp &&& 0xff ]

/-- Function `ecdh_new`, in both of its `#ifdef STANDALONE` variants. The
pair `luaL_getmetatable` / `lua_setmetatable(L, -2)` turns the fresh userdata
into a `zenroom.ecdh` object. -/
def ecdh_new (B : Build) (W : Env) (curve : List Char) : LuaM (Option ecdh) := do
  match (← ecdh_new_curve B curve) with
  | none =>
      let _ ← SAFE "ecdh_new" (none : Option ecdh)
      return none
  | some (e_p, e) =>
      if B.STANDALONE then
        let (rc, rng) := W.wc_InitRng
        let e := { e with rng := some rng }
        store e_p (.userdata e)
        if rc ≠ 0 then
          return none
        else
          let e :=
            { e with seckey := none, seclen := e.keysize,
                     pubkey := none, publen := e.keysize * 2 }
          store e_p (.ecdh e)
          return some e
      else
        let e :=
          { e with seckey := none, seclen := e.keysize,
                   pubkey := none, publen := e.keysize * 2 }
        let e := { e with rng := some (B.RAND_seed 256 (ecdh_seed W)) }
        store e_p (.ecdh e)
        return some e

/-- Constructor `lua_new_ecdh`, registered as `new`. -/
def lua_new_ecdh (B : Build) (W : Env) : LuaM Int := do
  let curve ← luaL_optstring 1 "ed25519"
  let e ← ecdh_new B W curve.toList
  let _ ← SAFE "lua_new_ecdh" e
  return 1

/-! ## Keyring methods of `zen_ecdh.c` -/

/-- Method `keyring:keygen()`. -/
def ecdh_keygen (B : Build) : LuaM Int := do
  let e ← ecdh_arg 1
  (if e.seckey.isSome then KEYPROT e.curve "private key" else pure ())
  (if e.pubkey.isSome then KEYPROT e.curve "public key" else pure ())
  let (pk_p, pk) ← o_new e.publen
  let (sk_p, sk) ← o_new e.seclen
  let (_, rng, sk, pk) := e.ECP__KEY_PAIR_GENERATE e.rng sk pk
  let e := { e with rng := rng }
  store 1 (.ecdh e)
  store sk_p (.octet sk)
  store pk_p (.octet pk)
  let res := e.ECP__PUBLIC_KEY_VALIDATE pk
  if res = ECDH_INVALID_PUBLIC_KEY B then
    let _ ← (lerror "ecdh_keygen: generated public key is invalid" : LuaM Int)
    lua_pop 1
    lua_pop 1
    return 0
  else
    store 1 (.ecdh { e with pubkey := some pk, seckey := some sk })
    return 2

/-- Method `keyring:checkpub(key)`. -/
def ecdh_checkpub (_B : Build) : LuaM Int := do
  let e ← ecdh_arg 1
  let L ← getL
  let pk ←
    (if lua_isnoneornil L 2 then
      (match e.pubkey with
      | none => lerror "Public key not found."
      | some pk => pure pk)
    else o_arg 2)
  (if e.ECP__PUBLIC_KEY_VALIDATE pk = 0 then
    lua_pushboolean 1
  else
    lua_pushboolean 0)
  return 1

/-- Method `keyring:session(public)`. The secret key pointer `e->seckey` is
handed to `ECP__SVDP_DH` as it is, `NULL` included. -/
def ecdh_session (B : Build) : LuaM Int := do
  let e ← ecdh_arg 1
  let L ← getL
  let pubkey ←
    (match luaL_testudata L 2 "zenroom.ecdh" with
    | some (.ecdh pk) =>
        (match pk.pubkey with
        | none => lerror "ecdh_session: public key not found in keyring"
        | some pubkey => pure pubkey)
    | _ =>
        (match luaL_testudata L 2 "zenroom.octet" with
        | some (.octet o) => pure o
        | _ => lerror "ecdh_session: invalid key in argument"))
  let res := e.ECP__PUBLIC_KEY_VALIDATE pubkey
  if res = ECDH_INVALID_PUBLIC_KEY B then
    let _ ← (lerror "ecdh_session: argument found, but is an invalid key" : LuaM Int)
    return 0
  else
    let (ses_p, ses) ← o_new e.keysize
    let (_, ses) := e.ECP__SVDP_DH e.seckey pubkey ses
    store ses_p (.octet ses)
    return 1

/-- Method `keyring:public(key)`. -/
def ecdh_public (B : Build) : LuaM Int := do
  let e ← ecdh_arg 1
  let L ← getL
  if lua_isnoneornil L 2 then
    match e.pubkey with
    | none => lerror "Public key is not found in keyring."
    | some pubkey =>
        let res := e.ECP__PUBLIC_KEY_VALIDATE pubkey
        if res = ECDH_INVALID_PUBLIC_KEY B then
          lerror "Public key found, but invalid."
        else
          let _ ← o_dup pubkey
          return 1
  else
    (if e.pubkey.isSome then KEYPROT e.curve "public key" else pure ())
    let o ← o_arg 2
    let res := e.ECP__PUBLIC_KEY_VALIDATE o
    if res = ECDH_INVALID_PUBLIC_KEY B then
      lerror "Public key argument is invalid."
    else
      store 1 (.ecdh { e with pubkey := some o })
      return 0

/-- Method `keyring:private(key)`, registered for `ecdh_private`. With an
argument the secret key is assigned first, the public key is then derived by
`ECP__KEY_PAIR_GENERATE(NULL, e->seckey, pk)` and assigned after validation.
The octet the backend writes through `e->seckey` is the argument itself, so
the written value goes to the secret slot and to the userdata at index 2; a
public-key slot pointing to that same userdata is not followed (see `ecdh`). -/
def ecdh_private (B : Build) : LuaM Int := do
  let e ← ecdh_arg 1
  let L ← getL
  if lua_isnoneornil L 2 then
    match e.seckey with
    | none => lerror "Private key is not found in keyring."
    | some seckey =>
        let _ ← o_dup seckey
        return 1
  else
    (if e.seckey.isSome then KEYPROT e.curve "private key" else pure ())
    let o ← o_arg 2
    let e := { e with seckey := some o }
    store 1 (.ecdh e)
    let (pk_p, pk) ← o_new e.publen
    let (_, _, s, pk) := e.ECP__KEY_PAIR_GENERATE none o pk
    let e := { e with seckey := some s }
    store 1 (.ecdh e)
    (if (luaL_testudata L 2 "zenroom.octet").isSome then store 2 (.octet s) else pure ())
    store pk_p (.octet pk)
    let res := e.ECP__PUBLIC_KEY_VALIDATE pk
    if res = ECDH_INVALID_PUBLIC_KEY B then
      lerror "Invalid public key generation."
    else
      store 1 (.ecdh { e with pubkey := some pk })
      return 1

/-- Method `keyring:encrypt(key, message)`. -/
def ecdh_encrypt (B : Build) : LuaM Int := do
  let _e ← ecdh_arg 1
  let k ← o_arg 2
  let in_ ← o_arg 3
  let (out_p, out) ← o_new (c_int (in_.len + 0x0f))
  (if B.STANDALONE then do
    let iv := List.replicate 16 0
    let (rc, outval) := B.wc_AesCbcEncryptWithKey out.val in_.val in_.len k.val k.len iv
    store out_p (.octet { out with val := outval })
    (if rc ≠ 0 then do
      lua_pop 1
      lua_pushboolean 0
    else pure ())
  else do
    store out_p (.octet (B.AES_CBC_IV0_ENCRYPT k in_ out)))
  return 1

/-- Method `keyring:aead_encrypt(key, message, iv, h)`. -/
def ecdh_aead_encrypt (B : Build) : LuaM Int := do
  let _e ← ecdh_arg 1
  let k ← o_arg 2
  let in_ ← o_arg 3
  let iv ← o_arg 4
  let h ← o_arg 5
  let (out_p, out) ← o_new (c_int (in_.len + 16))
  let (t_p, t) ← o_new 16
  (if B.STANDALONE then do
    let aes := B.wc_AesGcmSetKey k.val k.len
    let (res, outval, tval) :=
      B.wc_AesGcmEncrypt aes out.val in_.val in_.len iv.val iv.len t.val t.len h.val h.len
    store out_p (.octet { out with val := outval })
    store t_p (.octet { t with val := tval })
    (if res ≠ 0 then do
      lua_pop 1
      lua_pop 1
      lua_pushboolean 0
    else pure ())
  else do
    let (out, t) := B.AES_GCM_ENCRYPT k iv h in_ out t
    store out_p (.octet out)
    store t_p (.octet t))
  return 2

/-- Method `keyring:decrypt(key, ciphertext)`. -/
def ecdh_decrypt (B : Build) : LuaM Int := do
  let _e ← ecdh_arg 1
  let k ← o_arg 2
  let in_ ← o_arg 3
  let (out_p, out) ← o_new (c_int (in_.len + 16))
  (if B.STANDALONE then do
    let iv := List.replicate 16 0
    let (rc, outval) := B.wc_AesCbcEncryptWithKey out.val in_.val in_.len k.val k.len iv
    store out_p (.octet { out with val := outval })
    (if rc ≠ 0 then do
      lua_pop 1
      lua_pushboolean 0
    else pure ())
  else do
    let (rc, out) := B.AES_CBC_IV0_DECRYPT k in_ out
    store out_p (.octet out)
    (if rc = 0 then do
      lua_pop 1
      lua_pushboolean 0
    else pure ()))
  return 1

/-- Method `keyring:aead_decrypt(key, ciphertext, iv, h, tag)`. -/
def ecdh_aead_decrypt (B : Build) : LuaM Int := do
  let _e ← ecdh_arg 1
  let k ← o_arg 2
  let in_ ← o_arg 3
  let iv ← o_arg 4
  let h ← o_arg 5
  let t ← o_arg 6
  let (out_p, out) ← o_new (c_int (in_.len + 16))
  let (t2_p, t2) ← o_new t.len
  (if B.STANDALONE then do
    let aes := B.wc_AesGcmSetKey k.val k.len
    let (rc, outval) :=
      B.wc_AesGcmDecrypt aes out.val in_.val in_.len iv.val iv.len t.val t.len h.val h.len
    store out_p (.octet { out with val := outval })
    (if rc ≠ 0 then do
      lua_pop 1
      lua_pushboolean 0
    else pure ())
  else do
    let (out, t2) := B.AES_GCM_DECRYPT k iv h in_ out t2
    store out_p (.octet out)
    store t2_p (.octet t2)
    (if !OCT_comp t t2 then do
      lua_pop 1
      lua_pop 1
      lua_pushboolean 0
    else pure ()))
  lua_pop 1
  return 1

/-- Method `keyring:hash(string)`. -/
def ecdh_hash (B : Build) : LuaM Int := do
  let e ← ecdh_arg 1
  let in_ ← o_arg 2
  let (out_p, out) ← o_new e.hash
  store out_p (.octet (B.HASH e.hash in_ out))
  return 1

/-- Method `keyring:hmac(key, data, len)`. -/
def ecdh_hmac (B : Build) : LuaM Int := do
  let e ← ecdh_arg 1
  let k ← o_arg 2
  let in_ ← o_arg 3
  let len ← luaL_optinteger 4 e.hash
  let len := c_int len
  let (out_p, out) ← o_new len
  let (rc, out) := B.HMAC e.hash in_ k len out
  store out_p (.octet out)
  (if rc = 0 then do
    lua_pop 1
    lua_pushboolean 0
  else pure ())
  return 1

/-- Method `keyring:kdf2(parameters, key, length)`. -/
def ecdh_kdf2 (B : Build) : LuaM Int := do
  let e ← ecdh_arg 1
  let p ← o_arg 2
  let in_ ← o_arg 3
  let keylen ← luaL_optinteger 4 in_.len
  let keylen := c_int keylen
  let (out_p, out) ← o_new keylen
  store out_p (.octet (B.KDF2 e.hash p in_ keylen out))
  return 1

/-- Method `keyring:pbkdf2(key, salt, iterations, length)`. -/
def ecdh_pbkdf2 (B : Build) : LuaM Int := do
  let e ← ecdh_arg 1
  let k ← o_arg 2
  let s ← o_arg 3
  let iter ← luaL_optinteger 4 1000
  let iter := c_int iter
  let keylen ← luaL_optinteger 5 k.len
  let keylen := c_int keylen
  let (out_p, out) ← o_new keylen
  store out_p (.octet (B.PBKDF2 e.hash k s iter keylen out))
  return 1

/-- Method `keyring:random(int)`. -/
def ecdh_random (B : Build) : LuaM Int := do
  let e ← ecdh_arg 1
  let len ← luaL_optinteger 2 e.keysize
  let len := c_int len
  let (out_p, out) ← o_new (c_int (len + 2))
  let (out, rng) := B.OCT_rand out e.rng len
  store 1 (.ecdh { e with rng := rng })
  store out_p (.octet out)
  return 1

/-- Finaliser `ecdh_destroy` (`__gc`): releases the generator, touches no key. -/
def ecdh_destroy (_B : Build) : LuaM Int := do
  let _e ← ecdh_arg 1
  return 0

/-- Registration table `ecdh_methods` of `luaopen_ecdh`: `random`, then
`COMMON_METHODS`, then `__gc`. -/
def ecdh_methods (B : Build) : List (String × LuaM Int) :=
  [ ("random", ecdh_random B),
    ("keygen", ecdh_keygen B),
    ("session", ecdh_session B),
    ("public", ecdh_public B),
    ("private", ecdh_private B),
    ("encrypt", ecdh_encrypt B),
    ("aead_encrypt", ecdh_aead_encrypt B),
    ("decrypt", ecdh_decrypt B),
    ("aead_decrypt", ecdh_aead_decrypt B),
    ("hash", ecdh_hash B),
    ("hmac", ecdh_hmac B),
    ("kdf2", ecdh_kdf2 B),
    ("pbkdf2", ecdh_pbkdf2 B),
    ("checkpub", ecdh_checkpub B),
    ("__gc", ecdh_destroy B) ]

/-! ## Allocator hook of `zen_memory.c` -/

/-- Null pointer; a pointer is its address. -/
def NULL : Nat := 0

/-- Call into `umm_malloc.c`, recorded in the order the calls are made. -/
inductive umm_call where
  | malloc (size : Nat)
  | realloc (ptr size : Nat)
  | free (ptr : Nat)
deriving DecidableEq, Repr

/-- Allocator of `umm_malloc.c` (third party) over a heap `H`: each function
maps its arguments and the heap to its result and the heap after the call. -/
structure umm (H : Type) where
  umm_malloc : Nat → H → Nat × H
  umm_realloc : Nat → Nat → H → Nat × H
  umm_free : Nat → H → H

/-- Heap together with the allocator calls made on it so far. -/
structure umm_heap (H : Type) where
  heap : H
  calls : List umm_call

/-- Function `umm_memory_manager(ud, ptr, osize, nsize)`, the `lua_Alloc` hook.
Sizes are `size_t`; no arithmetic is done on them. -/
def umm_memory_manager {H : Type} (U : umm H) (_ud ptr osize nsize : Nat) (S : umm_heap H) :
    Nat × umm_heap H :=
  if ptr = NULL then
    if nsize ≠ 0 then
      let r := U.umm_malloc nsize S.heap
      (r.1, { heap := r.2, calls := S.calls ++ [.malloc nsize] })
    else
      (NULL, S)
  else
    if nsize = 0 then
      (NULL, { heap := U.umm_free ptr S.heap, calls := S.calls ++ [.free ptr] })
    else if osize ≥ nsize then
      let r := U.umm_realloc ptr nsize S.heap
      (r.1, { heap := r.2, calls := S.calls ++ [.realloc ptr nsize] })
    else
      let r := U.umm_realloc ptr nsize S.heap
      (r.1, { heap := r.2, calls := S.calls ++ [.realloc ptr nsize] })

/-! ## Output capture of `zen_io.c` -/

/-- Fields of `zenroom_t` that `lua_print_tobuffer` uses (the type is declared
in `zenroom.h`, not under `src/`): whether `stdout_buf` is non-`NULL`, the
buffer length and the write position. -/
structure zenroom_t where
  stdout_buf : Bool
  stdout_len : Nat
  stdout_pos : Nat
deriving DecidableEq, Repr

/-- Capture state: the `zenroom_t` fields and the bytes stored so far through
`out`, each as (offset from `stdout_buf`, byte), in the order they are stored.
Offsets are not clipped, so a store past the end of the buffer is visible. -/
structure print_state where
  Z : zenroom_t
  writes : List (Nat × Nat)
deriving DecidableEq, Repr

/-- Function `snprintf(out + pos, size, "%s", s)` of libc, as the stores it
makes: nothing when `size` is 0, otherwise the characters of the C string `s`
cut to `size - 1`, followed by a NUL. -/
def snprintf (pos size : Nat) (s : List Char) : List (Nat × Nat) :=
  if size = 0 then []
  else
    let body := (cstr s).take (size - 1)
    body.enum.map (fun p => (pos + p.1, p.2.toNat)) ++ [(pos + body.length, 0)]

/-- Loop of `lua_print_tobuffer` over the strings `lua_print_format` yields for
the arguments; `first` is `i == 1`. From the second argument on a tab is stored
at `stdout_pos` and the position advanced; then `snprintf` is given
`stdout_len - stdout_pos` as its `size_t` size (so the difference wraps modulo
`2 ^ 64` when the position is past the length); then the position advances by
the Lua length of the string. -/
def lua_print_tobuffer_loop : Bool → List (List Char) → print_state → print_state
  | _, [], S => S
  | first, s :: rest, S =>
      let S1 : print_state :=
        if first then S
        else
          { Z := { S.Z with stdout_pos := S.Z.stdout_pos + 1 },
            writes := S.writes ++ [(S.Z.stdout_pos, 9)] }
      let size := (S1.Z.stdout_len + 2 ^ 64 - S1.Z.stdout_pos) % 2 ^ 64
      let S2 : print_state :=
        { S1 with writes := S1.writes ++ snprintf S1.Z.stdout_pos size s }
      let S3 : print_state :=
        { S2 with Z := { S2.Z with stdout_pos := S2.Z.stdout_pos + s.length } }
      lua_print_tobuffer_loop false rest S3

/-- Function `lua_print_tobuffer`: when a buffer is configured and
`stdout_pos < stdout_len` it appends the arguments and returns 1, otherwise it
returns 0 and stores nothing. -/
def lua_print_tobuffer (S : print_state) (args : List (List Char)) : print_state × Int :=
  if S.Z.stdout_buf ∧ S.Z.stdout_pos < S.Z.stdout_len then
    (lua_print_tobuffer_loop true args S, 1)
  else
    (S, 0)

/-! ## Vocabulary of the claims -/

/-- Two names agree up to letter case. -/
def eq_ignoring_case (s t : List Char) : Prop :=
  s.map Char.toLower = t.map Char.toLower

instance (s t : List Char) : Decidable (eq_ignoring_case s t) :=
  inferInstanceAs (Decidable (s.map Char.toLower = t.map Char.toLower))

/-- The three spellings `ecdh_new_curve` accepts. -/
def curve_aliases : List (List Char) :=
  ["ec25519".toList, "ed25519".toList, "25519".toList]

/-- State `L` has at index 1 a keyring whose two key slots are those of `e`. -/
def same_keys (e : ecdh) (L : lua_State) : Prop :=
  ∃ e1, keyring L = some e1 ∧ e1.seckey = e.seckey ∧ e1.pubkey = e.pubkey

/-- Two keyrings are bound to the same curve backend: the same key-pair,
validation and Diffie-Hellman functions and the same sizes. -/
def same_backend (a b : ecdh) : Prop :=
  a.ECP__KEY_PAIR_GENERATE = b.ECP__KEY_PAIR_GENERATE ∧
  a.ECP__PUBLIC_KEY_VALIDATE = b.ECP__PUBLIC_KEY_VALIDATE ∧
  a.ECP__SVDP_DH = b.ECP__SVDP_DH ∧
  a.keysize = b.keysize ∧ a.seclen = b.seclen ∧ a.publen = b.publen

/-- Diffie-Hellman law of the backend of `e`: for any two key pairs its
key-pair function generates into the buffers `keygen` allocates, the shared
secret of the first secret key with the second public key is the shared secret
of the second secret key with the first public key. -/
def dh_law (e : ecdh) : Prop :=
  ∀ (R1 R2 : Option RNGTYPE) (K : octet),
    (e.ECP__SVDP_DH
        (some (e.ECP__KEY_PAIR_GENERATE R1 ⟨0, e.seclen, []⟩ ⟨0, e.publen, []⟩).2.2.1)
        (e.ECP__KEY_PAIR_GENERATE R2 ⟨0, e.seclen, []⟩ ⟨0, e.publen, []⟩).2.2.2 K).2 =
    (e.ECP__SVDP_DH
        (some (e.ECP__KEY_PAIR_GENERATE R2 ⟨0, e.seclen, []⟩ ⟨0, e.publen, []⟩).2.2.1)
        (e.ECP__KEY_PAIR_GENERATE R1 ⟨0, e.seclen, []⟩ ⟨0, e.publen, []⟩).2.2.2 K).2

/-- Contract of the CBC primitive in the spec, for key `k`, message `m` and
output length `r`: the ciphertext has length `r`, and a write is clamped to the
capacity of the buffer it is given. -/
def cbc_writes (B : Build) (k m : octet) (r : Int) : Prop :=
  ∀ out : octet, (B.AES_CBC_IV0_ENCRYPT k m out).len = min r out.max

/-- Keyring as `ecdh_new` leaves it for curve 25519: the wolfSSL primitives,
the sizes of the build, and both key slots empty. -/
def wolfssl_fresh (B : Build) (k : ecdh) : Prop :=
  k.ECP__KEY_PAIR_GENERATE = wolfcrypt_ed25519_keypair_generate ∧
  k.ECP__PUBLIC_KEY_VALIDATE = wolfcrypt_ed25519_public_key_validate ∧
  k.ECP__SVDP_DH = wolfcrypt_ed25519_svdp_dh ∧
  k.keysize = B.CURVE25519_KEYSIZE ∧
  k.fieldsize = 2 * B.CURVE25519_KEYSIZE ∧
  k.hash = B.SHA512_BLOCK_SIZE ∧
  k.seclen = B.CURVE25519_KEYSIZE ∧
  k.publen = B.CURVE25519_KEYSIZE * 2 ∧
  k.seckey = none ∧
  k.pubkey = none

/-! ## Fixtures for concrete evaluation -/

/-- Build used to run the code on concrete inputs: the wolfSSL constants
(32-byte keys, 128-byte SHA-512 block) and third-party primitives that write
nothing and report success. -/
def stubBuild (standalone : Bool) : Build :=
  { STANDALONE := standalone
    AMCL_ECDH_INVALID_PUBLIC_KEY := -2
    CURVE25519_KEYSIZE := 32
    SHA512_BLOCK_SIZE := 128
    RAND_seed := fun _ seed => seed
    AES_CBC_IV0_ENCRYPT := fun _ _ out => out
    AES_CBC_IV0_DECRYPT := fun _ _ out => (1, out)
    AES_GCM_ENCRYPT := fun _ _ _ _ out t => (out, t)
    AES_GCM_DECRYPT := fun _ _ _ _ out t => (out, t)
    wc_AesCbcEncryptWithKey := fun out _ _ _ _ _ => (0, out)
    wc_AesGcmSetKey := fun key _ => key
    wc_AesGcmEncrypt := fun _ out _ _ _ _ t _ _ _ => (0, out, t)
    wc_AesGcmDecrypt := fun _ out _ _ _ _ _ _ _ _ => (0, out)
    HASH := fun _ _ out => out
    HMAC := fun _ _ _ _ out => (1, out)
    KDF2 := fun _ _ _ _ out => out
    PBKDF2 := fun _ _ _ _ _ out => out
    OCT_rand := fun out rng _ => (out, rng) }

/-- Build like `stubBuild true` whose wolfSSL CBC call is a toy cipher that
can be inverted: it reports success and writes the first `sz` input bytes, each
plus one modulo 256. -/
def shiftBuild : Build :=
  { stubBuild true with
    wc_AesCbcEncryptWithKey := fun _ inp sz _ _ _ =>
      (0, (inp.take sz.toNat).map (fun b => (b + 1) % 256)) }

/-- Keyring that `new("ed25519")` hands back under `stubBuild true` and
`stubEnv time`: the curve 25519 record with the generator of `wc_InitRng`,
empty key slots, `seclen` 32 and `publen` 64. -/
def demoKeyring (time : Nat) : ecdh :=
  { ecdh_curve25519 (stubBuild true) "ed25519".toList with
    rng := some [time], seclen := 32, publen := 64 }

/-- Keyring like `demoKeyring 0` but bound to a backend whose public-key
validation rejects every octet with the `STANDALONE` value of
`ECDH_INVALID_PUBLIC_KEY`. -/
def rejectingKeyring : ecdh :=
  { demoKeyring 0 with ECP__PUBLIC_KEY_VALIDATE := fun _ => -13 }

/-- Keyring like `demoKeyring 0` but bound to a backend whose public-key
validation reports, for every octet, the error code `-1`: not success, and not
the `STANDALONE` value of `ECDH_INVALID_PUBLIC_KEY` either. -/
def erringKeyring : ecdh :=
  { demoKeyring 0 with ECP__PUBLIC_KEY_VALIDATE := fun _ => -1 }

/-- Secret exponent of the toy backend below: drawn from the generator when
there is one, read from the first byte of `s` otherwise. -/
def toy_exponent (R : Option RNGTYPE) (s : octet) : Nat :=
  match R with
  | some r => r.sum % 250
  | none => s.val.headD 0 % 250

/-- Key-pair function of a toy Diffie-Hellman backend modulo the prime 251 with
base 6: the secret key is the one-byte exponent `x`, the public key the byte
`6 ^ x % 251`. -/
def toy_keypair_generate (R : Option RNGTYPE) (s W : octet) :
    Int × Option RNGTYPE × octet × octet :=
  (0, R, { s with len := 1, val := [toy_exponent R s] },
    { W with len := 1, val := [6 ^ toy_exponent R s % 251] })

/-- Shared-secret function of the toy backend: the byte `W ^ s % 251`; with no
secret key nothing is written. -/
def toy_svdp_dh (s : Option octet) (W K : octet) : Int × octet :=
  match s with
  | some s => (0, { K with len := 1, val := [W.val.headD 0 ^ s.val.headD 0 % 251] })
  | none => (0, K)

/-- Keyring like `demoKeyring 0` but bound to the toy Diffie-Hellman backend,
with the generator state `[seed]`. -/
def dhKeyring (seed : Nat) : ecdh :=
  { demoKeyring 0 with
    rng := some [seed]
    ECP__KEY_PAIR_GENERATE := toy_keypair_generate
    ECP__SVDP_DH := toy_svdp_dh }

/-- Build like `stubBuild false` whose CBC encryption follows the contract of
the spec: the ciphertext length is the message length rounded up to a multiple
of 16, clamped to the capacity of the output buffer (the bytes are left out). -/
def blockBuild : Build :=
  { stubBuild false with
    AES_CBC_IV0_ENCRYPT := fun _ m out =>
      { out with len := min ((m.len + 15) / 16 * 16) out.max } }

/-- Environment used to run the code on concrete inputs: zero entropy, the
given clock value, and a successful `wc_InitRng` whose generator state is the
clock value. -/
def stubEnv (time : Nat) : Env :=
  { randombytes := fun _ _ => 0
    GET_TIME := time
    wc_InitRng := (0, [time]) }

/-! ## Evaluation lemmas -/

theorem ecdh_new_curve_eval (B : Build) (curve : List Char) (L : lua_State) :
    ecdh_new_curve B curve L =
      if curve_supported curve then
        .ok (some (L.stack.length + 1, ecdh_curve25519 B curve))
          ⟨L.stack ++ [.userdata (ecdh_curve25519 B curve)]⟩
      else .ok none L := by
  by_cases h : curve_supported curve = true <;>
    simp [ecdh_new_curve, h, bind, LuaM.bind, pure, lua_push, getL]

theorem ecdh_new_eval (B : Build) (W : Env) (curve : List Char) (L : lua_State) :
    (¬ curve_supported curve → ecdh_new B W curve L = .raised (.SAFE "ecdh_new") L) ∧
    (curve_supported curve →
      (∃ k, wolfssl_fresh B k ∧ ecdh_new B W curve L = .ok (some k) ⟨L.stack ++ [.ecdh k]⟩) ∨
      (∃ u, ecdh_new B W curve L = .ok none ⟨L.stack ++ [.userdata u]⟩)) := by
  constructor
  · intro h
    simp [ecdh_new, ecdh_new_curve_eval, h, bind, LuaM.bind, pure, SAFE]
  · intro h
    by_cases hS : B.STANDALONE = true
    · by_cases hrc : W.wc_InitRng.1 = 0
      · left
        refine ⟨{ ecdh_curve25519 B curve with
                    rng := some W.wc_InitRng.2, seckey := none, seclen := B.CURVE25519_KEYSIZE,
                    pubkey := none, publen := B.CURVE25519_KEYSIZE * 2 }, ?_, ?_⟩
        · simp [wolfssl_fresh, ecdh_curve25519]
        · simp [ecdh_new, ecdh_new_curve_eval, h, bind, LuaM.bind, pure, hS, hrc, store]
          simp [ecdh_curve25519]
      · right
        refine ⟨{ ecdh_curve25519 B curve with rng := some W.wc_InitRng.2 }, ?_⟩
        simp [ecdh_new, ecdh_new_curve_eval, h, bind, LuaM.bind, pure, hS, hrc, store]
    · left
      refine ⟨{ ecdh_curve25519 B curve with
                  rng := some (B.RAND_seed 256 (ecdh_seed W)), seckey := none,
                  seclen := B.CURVE25519_KEYSIZE,
                  pubkey := none, publen := B.CURVE25519_KEYSIZE * 2 }, ?_, ?_⟩
      · simp [wolfssl_fresh, ecdh_curve25519]
      · simp [ecdh_new, ecdh_new_curve_eval, h, bind, LuaM.bind, pure, hS, store]
        simp [ecdh_curve25519]

theorem values_ok_one (xs : List LuaValue) (v : LuaValue) :
    Res.values (.ok 1 ⟨xs ++ [v]⟩) = [v] := by
  simp [Res.values]

/-- Keyring handed back by `lua_new_ecdh`: a fresh curve 25519 keyring. -/
theorem lua_new_ecdh_values (B : Build) (W : Env) (L : lua_State) (a : ecdh)
    (h : (lua_new_ecdh B W L).values = [.ecdh a]) : wolfssl_fresh B a := by
  unfold lua_new_ecdh at h
  simp only [bind, LuaM.bind] at h
  cases hs : luaL_optstring 1 "ed25519" L with
  | raised err L1 => simp [hs, Res.values] at h
  | ok s L1 =>
    simp only [hs, String.toList] at h
    by_cases hc : curve_supported s.data = true
    · rcases (ecdh_new_eval B W s.data L1).2 hc with ⟨k, hk, hnew⟩ | ⟨u, hnew⟩
      · simp only [hnew, SAFE, pure] at h
        rw [values_ok_one] at h
        simp at h
        exact h ▸ hk
      · simp [hnew, SAFE, Res.values] at h
    · have hnew := (ecdh_new_eval B W s.data L1).1 hc
      simp [hnew, Res.values] at h

theorem ecdh_arg_self (e : ecdh) (args : List LuaValue) :
    ecdh_arg 1 ⟨.ecdh e :: args⟩ = .ok e ⟨.ecdh e :: args⟩ := by
  simp [ecdh_arg, luaL_testudata, index2value, LuaValue.tname]

/-- A call that `ecdh_arg(L, 1)` lets through runs on a keyring at index 1. -/
theorem ecdh_arg_ok (L L1 : lua_State) (e : ecdh) (h : ecdh_arg 1 L = .ok e L1) :
    ∃ args, L = ⟨.ecdh e :: args⟩ ∧ L1 = L := by
  obtain ⟨stack⟩ := L
  cases stack with
  | nil => simp [ecdh_arg, luaL_testudata, index2value] at h
  | cons v args =>
    cases v <;> simp [ecdh_arg, luaL_testudata, index2value, LuaValue.tname] at h
    obtain ⟨rfl, rfl⟩ := h
    exact ⟨args, rfl, rfl⟩

/-- Closed form of `ecdh_keygen` on a keyring at index 1. -/
theorem ecdh_keygen_eval (B : Build) (e : ecdh) (args : List LuaValue) :
    ecdh_keygen B ⟨.ecdh e :: args⟩ =
      if e.seckey.isSome then .raised (.lerror KEYPROT_msg) ⟨.ecdh e :: args⟩
      else if e.pubkey.isSome then .raised (.lerror KEYPROT_msg) ⟨.ecdh e :: args⟩
      else
        let r := e.ECP__KEY_PAIR_GENERATE e.rng ⟨0, e.seclen, []⟩ ⟨0, e.publen, []⟩
        if e.ECP__PUBLIC_KEY_VALIDATE r.2.2.2 = ECDH_INVALID_PUBLIC_KEY B then
          .raised (.lerror "ecdh_keygen: generated public key is invalid")
            ⟨.ecdh { e with rng := r.2.1 } :: (args ++ [.octet r.2.2.2, .octet r.2.2.1])⟩
        else
          .ok 2 ⟨.ecdh { e with rng := r.2.1, pubkey := some r.2.2.2, seckey := some r.2.2.1 }
                  :: (args ++ [.octet r.2.2.2, .octet r.2.2.1])⟩ := by
  by_cases h1 : e.seckey.isSome = true
  · simp [ecdh_keygen, bind, LuaM.bind, ecdh_arg_self, KEYPROT, lerror, h1]
  by_cases h2 : e.pubkey.isSome = true
  · simp [ecdh_keygen, bind, LuaM.bind, ecdh_arg_self, KEYPROT, lerror, pure, h1, h2]
  by_cases h3 : e.ECP__PUBLIC_KEY_VALIDATE
      (e.ECP__KEY_PAIR_GENERATE e.rng ⟨0, e.seclen, []⟩ ⟨0, e.publen, []⟩).2.2.2
        = ECDH_INVALID_PUBLIC_KEY B
  · simp [ecdh_keygen, bind, LuaM.bind, ecdh_arg_self, KEYPROT, lerror, pure, o_new, store,
      h1, h2, h3]
  · simp [ecdh_keygen, bind, LuaM.bind, ecdh_arg_self, KEYPROT, lerror, pure, o_new, store,
      h1, h2, h3]

/-- Closed form of `ecdh_session` when the peer is a keyring. -/
theorem ecdh_session_eval_keyring (B : Build) (e p : ecdh) (args : List LuaValue) :
    ecdh_session B ⟨.ecdh e :: .ecdh p :: args⟩ =
      match p.pubkey with
      | none =>
          .raised (.lerror "ecdh_session: public key not found in keyring")
            ⟨.ecdh e :: .ecdh p :: args⟩
      | some pubkey =>
          if e.ECP__PUBLIC_KEY_VALIDATE pubkey = ECDH_INVALID_PUBLIC_KEY B then
            .raised (.lerror "ecdh_session: argument found, but is an invalid key")
              ⟨.ecdh e :: .ecdh p :: args⟩
          else
            .ok 1 ⟨.ecdh e :: .ecdh p ::
              (args ++ [.octet (e.ECP__SVDP_DH e.seckey pubkey ⟨0, e.keysize, []⟩).2])⟩ := by
  cases hp : p.pubkey with
  | none =>
    simp [ecdh_session, bind, LuaM.bind, ecdh_arg_self, getL, luaL_testudata, index2value,
      LuaValue.tname, lerror, hp]
  | some pubkey =>
    by_cases hv : e.ECP__PUBLIC_KEY_VALIDATE pubkey = ECDH_INVALID_PUBLIC_KEY B
    · simp [ecdh_session, bind, LuaM.bind, ecdh_arg_self, getL, luaL_testudata, index2value,
        LuaValue.tname, lerror, pure, hp, hv]
    · simp [ecdh_session, bind, LuaM.bind, ecdh_arg_self, getL, luaL_testudata, index2value,
        LuaValue.tname, lerror, pure, o_new, store, hp, hv]

/-- Closed form of `ecdh_session` when the peer is an octet. -/
theorem ecdh_session_eval_octet (B : Build) (e : ecdh) (o : octet) (args : List LuaValue) :
    ecdh_session B ⟨.ecdh e :: .octet o :: args⟩ =
      if e.ECP__PUBLIC_KEY_VALIDATE o = ECDH_INVALID_PUBLIC_KEY B then
        .raised (.lerror "ecdh_session: argument found, but is an invalid key")
          ⟨.ecdh e :: .octet o :: args⟩
      else
        .ok 1 ⟨.ecdh e :: .octet o ::
          (args ++ [.octet (e.ECP__SVDP_DH e.seckey o ⟨0, e.keysize, []⟩).2])⟩ := by
  by_cases hv : e.ECP__PUBLIC_KEY_VALIDATE o = ECDH_INVALID_PUBLIC_KEY B
  · simp [ecdh_session, bind, LuaM.bind, ecdh_arg_self, getL, luaL_testudata, index2value,
      LuaValue.tname, lerror, pure, hv]
  · simp [ecdh_session, bind, LuaM.bind, ecdh_arg_self, getL, luaL_testudata, index2value,
      LuaValue.tname, lerror, pure, o_new, store, hv]


/-! ## Claims C1 and C2 -/

/-- Two keyrings fresh from `ecdh_new` are bound to the same backend. -/
theorem same_backend_of_fresh (B : Build) (a b : ecdh) (ha : wolfssl_fresh B a)
    (hb : wolfssl_fresh B b) : same_backend a b := by
  obtain ⟨a1, a2, a3, a4, -, -, a7, a8, -, -⟩ := ha
  obtain ⟨b1, b2, b3, b4, -, -, b7, b8, -, -⟩ := hb
  exact ⟨a1.trans b1.symm, a2.trans b2.symm, a3.trans b3.symm, a4.trans b4.symm,
    a7.trans b7.symm, a8.trans b8.symm⟩

/-- The wolfSSL backend of `ecdh_new` meets the Diffie-Hellman law: its
shared-secret function writes nothing, whatever the keys. -/
theorem dh_law_of_fresh (B : Build) (a : ecdh) (ha : wolfssl_fresh B a) : dh_law a := by
  obtain ⟨-, -, a3, -⟩ := ha
  intro R1 R2 K
  rw [a3]
  rfl

/-- The toy backend meets the Diffie-Hellman law: both sides are the byte
`6 ^ (x1 * x2) % 251`. -/
theorem dh_law_toy (seed : Nat) : dh_law (dhKeyring seed) := by
  intro R1 R2 K
  show (toy_svdp_dh _ _ K).2 = (toy_svdp_dh _ _ K).2
  simp only [dhKeyring, toy_svdp_dh, toy_keypair_generate, List.headD_cons]
  rw [← Nat.pow_mod, ← Nat.pow_mod, ← pow_mul, ← pow_mul, Nat.mul_comm]

/-- C1: two keyrings `a`, `b` bound to the same curve backend and each keyed by
its own `keygen()` derive the same session key, provided the backend meets the
Diffie-Hellman law: `a:session(b)` and `b:session(a)` both return exactly one
value, the same octet, which is the shared secret the backend computes from the
secret key stored in `a` and the public key stored in `b`. Every two keyrings
that `new` creates from the same curve argument are bound to the same backend,
and that backend meets the law. -/
theorem session_symmetric (B : Build) (a0 b0 a b : ecdh) (xa xb : List LuaValue)
    (nA nB : Int) (LA LB : lua_State)
    (hsame : same_backend a0 b0) (hlaw : dh_law a0)
    (hAk : ecdh_keygen B ⟨.ecdh a0 :: xa⟩ = .ok nA LA) (ha : keyring LA = some a)
    (hBk : ecdh_keygen B ⟨.ecdh b0 :: xb⟩ = .ok nB LB) (hb : keyring LB = some b) :
    ∃ k skA pkB : octet,
      a.seckey = some skA ∧ b.pubkey = some pkB ∧
      k = (a.ECP__SVDP_DH (some skA) pkB ⟨0, a.keysize, []⟩).2 ∧
      (ecdh_session B ⟨[.ecdh a, .ecdh b]⟩).values = [.octet k] ∧
      (ecdh_session B ⟨[.ecdh b, .ecdh a]⟩).values = [.octet k] ∧
      ∀ (WA WB : Env) (curve : LuaValue) (c0 d0 : ecdh),
        (lua_new_ecdh B WA ⟨[curve]⟩).values = [.ecdh c0] →
        (lua_new_ecdh B WB ⟨[curve]⟩).values = [.ecdh d0] →
        same_backend c0 d0 ∧ dh_law c0 := by
  have hnew : ∀ (WA WB : Env) (curve : LuaValue) (c0 d0 : ecdh),
      (lua_new_ecdh B WA ⟨[curve]⟩).values = [.ecdh c0] →
      (lua_new_ecdh B WB ⟨[curve]⟩).values = [.ecdh d0] →
      same_backend c0 d0 ∧ dh_law c0 := fun WA WB curve c0 d0 hc hd =>
    ⟨same_backend_of_fresh B c0 d0 (lua_new_ecdh_values B WA _ c0 hc)
      (lua_new_ecdh_values B WB _ d0 hd),
      dh_law_of_fresh B c0 (lua_new_ecdh_values B WA _ c0 hc)⟩
  obtain ⟨s1, s2, s3, s4, s5, s6⟩ := hsame
  rw [ecdh_keygen_eval] at hAk hBk
  by_cases a9 : a0.seckey.isSome = true
  · simp [a9] at hAk
  by_cases a10 : a0.pubkey.isSome = true
  · simp [a9, a10] at hAk
  by_cases b9 : b0.seckey.isSome = true
  · simp [b9] at hBk
  by_cases b10 : b0.pubkey.isSome = true
  · simp [b9, b10] at hBk
  by_cases hva : a0.ECP__PUBLIC_KEY_VALIDATE
      (a0.ECP__KEY_PAIR_GENERATE a0.rng ⟨0, a0.seclen, []⟩ ⟨0, a0.publen, []⟩).2.2.2
        = ECDH_INVALID_PUBLIC_KEY B
  · simp [a9, a10, hva] at hAk
  by_cases hvb : b0.ECP__PUBLIC_KEY_VALIDATE
      (b0.ECP__KEY_PAIR_GENERATE b0.rng ⟨0, b0.seclen, []⟩ ⟨0, b0.publen, []⟩).2.2.2
        = ECDH_INVALID_PUBLIC_KEY B
  · simp [b9, b10, hvb] at hBk
  simp only [a9, a10, hva, Bool.false_eq_true, if_false, Res.ok.injEq] at hAk
  simp only [b9, b10, hvb, Bool.false_eq_true, if_false, Res.ok.injEq] at hBk
  obtain ⟨-, rfl⟩ := hAk
  obtain ⟨-, rfl⟩ := hBk
  simp only [keyring, index2value] at ha hb
  simp at ha hb
  subst ha hb
  refine ⟨_, _, _, rfl, rfl, rfl, ?_, ?_, hnew⟩
  · rw [show ([.ecdh _, .ecdh _] : List LuaValue) = .ecdh _ :: .ecdh _ :: [] from rfl,
      ecdh_session_eval_keyring]
    dsimp only
    rw [s2, if_neg hvb]
    rfl
  · rw [show ([.ecdh _, .ecdh _] : List LuaValue) = .ecdh _ :: .ecdh _ :: [] from rfl,
      ecdh_session_eval_keyring]
    dsimp only
    rw [← s2, if_neg hva, ← s1, ← s3, ← s4, ← s5, ← s6]
    have h := hlaw b0.rng a0.rng ⟨0, a0.keysize, []⟩
    simp only [Res.values]
    rw [h]
    rfl

/-- Witness for C1: two keyrings on the toy Diffie-Hellman backend, keyed from
the generator states 3 and 5: both sessions return the byte
`6 ^ 15 % 251 = 126`. -/
theorem session_symmetric_witness :
    ∃ k skA pkB : octet,
      skA = ⟨1, 32, [3]⟩ ∧ pkB = ⟨1, 64, [246]⟩ ∧ k = ⟨1, 32, [126]⟩ ∧
      (ecdh_session (stubBuild true)
        ⟨[.ecdh { dhKeyring 3 with pubkey := some ⟨1, 64, [216]⟩, seckey := some ⟨1, 32, [3]⟩ },
          .ecdh { dhKeyring 5 with pubkey := some ⟨1, 64, [246]⟩, seckey := some ⟨1, 32, [5]⟩ }]⟩).values
        = [.octet k] ∧
      (ecdh_session (stubBuild true)
        ⟨[.ecdh { dhKeyring 5 with pubkey := some ⟨1, 64, [246]⟩, seckey := some ⟨1, 32, [5]⟩ },
          .ecdh { dhKeyring 3 with pubkey := some ⟨1, 64, [216]⟩, seckey := some ⟨1, 32, [3]⟩ }]⟩).values
        = [.octet k] := by
  obtain ⟨k, skA, pkB, h1, h2, h3, h4, h5, -⟩ :=
    session_symmetric (stubBuild true) (dhKeyring 3) (dhKeyring 5)
      { dhKeyring 3 with pubkey := some ⟨1, 64, [216]⟩, seckey := some ⟨1, 32, [3]⟩ }
      { dhKeyring 5 with pubkey := some ⟨1, 64, [246]⟩, seckey := some ⟨1, 32, [5]⟩ }
      [] [] 2 2
      (ecdh_keygen (stubBuild true) ⟨[.ecdh (dhKeyring 3)]⟩).state
      (ecdh_keygen (stubBuild true) ⟨[.ecdh (dhKeyring 5)]⟩).state
      ⟨rfl, rfl, rfl, rfl, rfl, rfl⟩ (dh_law_toy 3) rfl rfl rfl rfl
  cases h1
  cases h2
  exact ⟨k, _, _, rfl, rfl, h3, h4, h5⟩

/-- C2: after a `keygen()` that succeeded, the keyring holds both keys, and a
second `keygen()` on it, whatever its further arguments, fails with the
`KEYPROT` error (`KeyAlreadySet`) and leaves the state, hence the stored
secret and public key, exactly as the first call left them. -/
theorem keygen_twice (B : Build) (L0 L1 : lua_State) (n : Int) (args2 : List LuaValue)
    (h1 : ecdh_keygen B L0 = .ok n L1) :
    ∃ e1 sk pk, keyring L1 = some e1 ∧ e1.seckey = some sk ∧ e1.pubkey = some pk ∧
      ecdh_keygen B ⟨.ecdh e1 :: args2⟩
        = .raised (.lerror KEYPROT_msg) ⟨.ecdh e1 :: args2⟩ ∧
      keyring (ecdh_keygen B ⟨.ecdh e1 :: args2⟩).state = some e1 := by
  have harg : ∃ e, ecdh_arg 1 L0 = .ok e L0 := by
    cases h : ecdh_arg 1 L0 with
    | ok e L =>
      obtain ⟨args, -, rfl⟩ := ecdh_arg_ok L0 L e h
      exact ⟨e, rfl⟩
    | raised err L => simp [ecdh_keygen, bind, LuaM.bind, h] at h1
  obtain ⟨e, he⟩ := harg
  obtain ⟨args, rfl, -⟩ := ecdh_arg_ok L0 L0 e he
  rw [ecdh_keygen_eval] at h1
  by_cases hs : e.seckey.isSome = true
  · simp [hs] at h1
  by_cases hp : e.pubkey.isSome = true
  · simp [hs, hp] at h1
  by_cases hv : e.ECP__PUBLIC_KEY_VALIDATE
      (e.ECP__KEY_PAIR_GENERATE e.rng ⟨0, e.seclen, []⟩ ⟨0, e.publen, []⟩).2.2.2
        = ECDH_INVALID_PUBLIC_KEY B
  · simp [hs, hp, hv] at h1
  simp only [hs, hp, hv, Bool.false_eq_true, if_false, Res.ok.injEq] at h1
  obtain ⟨-, rfl⟩ := h1
  refine ⟨_, _, _, rfl, rfl, rfl, ?_, ?_⟩
  · rw [ecdh_keygen_eval]
    simp
  · rw [ecdh_keygen_eval]
    simp [Res.state, keyring, index2value]

/-- Witness for C2: `keygen()` twice on a fresh `ed25519` keyring. -/
theorem keygen_twice_witness :
    ∃ e1 sk pk,
      keyring (ecdh_keygen (stubBuild true) ⟨[.ecdh (demoKeyring 0)]⟩).state = some e1 ∧
      e1.seckey = some sk ∧ e1.pubkey = some pk ∧
      ecdh_keygen (stubBuild true) ⟨.ecdh e1 :: []⟩
        = .raised (.lerror KEYPROT_msg) ⟨.ecdh e1 :: []⟩ ∧
      keyring (ecdh_keygen (stubBuild true) ⟨.ecdh e1 :: []⟩).state = some e1 :=
  keygen_twice (stubBuild true) ⟨[.ecdh (demoKeyring 0)]⟩ _ 2 [] rfl


/-! ## Key slots across the methods -/

theorem o_arg_read (n : Nat) (L : lua_State) :
    (∃ o, o_arg n L = .ok o L) ∨ (∃ err, o_arg n L = .raised err L) := by
  unfold o_arg
  split
  · exact Or.inl ⟨_, rfl⟩
  · exact Or.inl ⟨_, rfl⟩
  · exact Or.inr ⟨_, rfl⟩

theorem luaL_optinteger_read (n : Nat) (d : Int) (L : lua_State) :
    (∃ i, luaL_optinteger n d L = .ok i L) ∨ (∃ err, luaL_optinteger n d L = .raised err L) := by
  unfold luaL_optinteger
  split
  · exact Or.inl ⟨_, rfl⟩
  · exact Or.inl ⟨_, rfl⟩
  · exact Or.inl ⟨_, rfl⟩
  · split
    · exact Or.inl ⟨_, rfl⟩
    · exact Or.inr ⟨_, rfl⟩
  · exact Or.inr ⟨_, rfl⟩

/-- A step that only reads the state keeps any property of the final state
that holds now and after every continuation. -/
theorem bind_read_state {α β : Type} (Q : lua_State → Prop) (m : LuaM α) (f : α → LuaM β)
    (L : lua_State)
    (hm : (∃ a, m L = .ok a L) ∨ (∃ err, m L = .raised err L))
    (hQ : Q L) (hf : ∀ a, Q (f a L).state) : Q ((m >>= f) L).state := by
  rcases hm with ⟨a, ha⟩ | ⟨err, ha⟩
  · simpa [bind, LuaM.bind, ha] using hf a
  · simpa [bind, LuaM.bind, ha, Res.state] using hQ

theorem same_keys_self (e : ecdh) (xs : List LuaValue) : same_keys e ⟨.ecdh e :: xs⟩ :=
  ⟨e, rfl, rfl, rfl⟩

theorem same_keys_cons (e e1 : ecdh) (xs : List LuaValue) (hs : e1.seckey = e.seckey)
    (hp : e1.pubkey = e.pubkey) : same_keys e ⟨.ecdh e1 :: xs⟩ :=
  ⟨e1, rfl, hs, hp⟩

theorem dropLast_cons_concat (a : LuaValue) (xs : List LuaValue) (x : LuaValue) :
    (a :: (xs ++ [x])).dropLast = a :: xs := by
  rw [← List.cons_append, List.dropLast_concat]

theorem getL_read (L : lua_State) :
    (∃ a, getL L = .ok a L) ∨ (∃ err, getL L = .raised err L) :=
  Or.inl ⟨L, rfl⟩

theorem ecdh_arg_read (e : ecdh) (args : List LuaValue) :
    (∃ a, ecdh_arg 1 ⟨.ecdh e :: args⟩ = .ok a ⟨.ecdh e :: args⟩) ∨
      (∃ err, ecdh_arg 1 ⟨.ecdh e :: args⟩ = .raised err ⟨.ecdh e :: args⟩) :=
  Or.inl ⟨e, ecdh_arg_self e args⟩

/-- Method `aead_decrypt` leaves both key slots of the keyring as they were. -/
theorem ecdh_aead_decrypt_keys (B : Build) (e : ecdh) (args : List LuaValue) :
    same_keys e (ecdh_aead_decrypt B ⟨.ecdh e :: args⟩).state := by
  unfold ecdh_aead_decrypt
  have hQ := same_keys_self e args
  refine bind_read_state _ _ _ _ (ecdh_arg_read e args) hQ (fun _ => ?_)
  refine bind_read_state _ _ _ _ (o_arg_read 2 _) hQ (fun k => ?_)
  refine bind_read_state _ _ _ _ (o_arg_read 3 _) hQ (fun i => ?_)
  refine bind_read_state _ _ _ _ (o_arg_read 4 _) hQ (fun iv => ?_)
  refine bind_read_state _ _ _ _ (o_arg_read 5 _) hQ (fun h => ?_)
  refine bind_read_state _ _ _ _ (o_arg_read 6 _) hQ (fun t => ?_)
  by_cases hS : B.STANDALONE = true
  · by_cases hrc : (B.wc_AesGcmDecrypt (B.wc_AesGcmSetKey k.val k.len) [] i.val i.len
        iv.val iv.len t.val t.len h.val h.len).1 = 0 <;>
    simp [bind, LuaM.bind, pure, o_new, store, lua_pop, lua_pushboolean, lua_push, hS, hrc,
      Res.state, List.dropLast_cons_of_ne_nil, same_keys_self]
  · by_cases hc : OCT_comp t
        (B.AES_GCM_DECRYPT k iv h i ⟨0, c_int (i.len + 16), []⟩ ⟨0, t.len, []⟩).2 = true <;>
    simp [bind, LuaM.bind, pure, o_new, store, lua_pop, lua_pushboolean, lua_push, hS, hc,
      Res.state, List.dropLast_cons_of_ne_nil, same_keys_self]

/-- Method `aead_encrypt` leaves both key slots of the keyring as they were. -/
theorem ecdh_aead_encrypt_keys (B : Build) (e : ecdh) (args : List LuaValue) :
    same_keys e (ecdh_aead_encrypt B ⟨.ecdh e :: args⟩).state := by
  unfold ecdh_aead_encrypt
  have hQ := same_keys_self e args
  refine bind_read_state _ _ _ _ (ecdh_arg_read e args) hQ (fun _ => ?_)
  refine bind_read_state _ _ _ _ (o_arg_read 2 _) hQ (fun k => ?_)
  refine bind_read_state _ _ _ _ (o_arg_read 3 _) hQ (fun i => ?_)
  refine bind_read_state _ _ _ _ (o_arg_read 4 _) hQ (fun iv => ?_)
  refine bind_read_state _ _ _ _ (o_arg_read 5 _) hQ (fun h => ?_)
  by_cases hS : B.STANDALONE = true
  · by_cases hrc : (B.wc_AesGcmEncrypt (B.wc_AesGcmSetKey k.val k.len) [] i.val i.len
        iv.val iv.len [] 0 h.val h.len).1 = 0 <;>
    simp [bind, LuaM.bind, pure, o_new, store, lua_pop, lua_pushboolean, lua_push, hS, hrc,
      Res.state, List.dropLast_cons_of_ne_nil, same_keys_self]
  · simp [bind, LuaM.bind, pure, o_new, store, lua_pop, lua_pushboolean, lua_push, hS,
      Res.state, List.dropLast_cons_of_ne_nil, same_keys_self]

/-- Method `encrypt` leaves both key slots of the keyring as they were. -/
theorem ecdh_encrypt_keys (B : Build) (e : ecdh) (args : List LuaValue) :
    same_keys e (ecdh_encrypt B ⟨.ecdh e :: args⟩).state := by
  unfold ecdh_encrypt
  have hQ := same_keys_self e args
  refine bind_read_state _ _ _ _ (ecdh_arg_read e args) hQ (fun _ => ?_)
  refine bind_read_state _ _ _ _ (o_arg_read 2 _) hQ (fun k => ?_)
  refine bind_read_state _ _ _ _ (o_arg_read 3 _) hQ (fun i => ?_)
  by_cases hS : B.STANDALONE = true
  · simp only [bind, LuaM.bind, pure, o_new, store, hS, if_true]
    split_ifs <;>
    simp [LuaM.bind, lua_pop, lua_pushboolean, lua_push,
      Res.state, List.dropLast_cons_of_ne_nil, same_keys_self]
  · simp [bind, LuaM.bind, pure, o_new, store, lua_pop, lua_pushboolean, lua_push, hS,
      Res.state, List.dropLast_cons_of_ne_nil, same_keys_self]

/-- Method `decrypt` leaves both key slots of the keyring as they were. -/
theorem ecdh_decrypt_keys (B : Build) (e : ecdh) (args : List LuaValue) :
    same_keys e (ecdh_decrypt B ⟨.ecdh e :: args⟩).state := by
  unfold ecdh_decrypt
  have hQ := same_keys_self e args
  refine bind_read_state _ _ _ _ (ecdh_arg_read e args) hQ (fun _ => ?_)
  refine bind_read_state _ _ _ _ (o_arg_read 2 _) hQ (fun k => ?_)
  refine bind_read_state _ _ _ _ (o_arg_read 3 _) hQ (fun i => ?_)
  by_cases hS : B.STANDALONE = true
  · simp only [bind, LuaM.bind, pure, o_new, store, hS, if_true]
    split_ifs <;>
    simp [LuaM.bind, lua_pop, lua_pushboolean, lua_push,
      Res.state, List.dropLast_cons_of_ne_nil, same_keys_self]
  · by_cases hrc : (B.AES_CBC_IV0_DECRYPT k i ⟨0, c_int (i.len + 16), []⟩).1 = 0 <;>
    simp [bind, LuaM.bind, pure, o_new, store, lua_pop, lua_pushboolean, lua_push, hS, hrc,
      Res.state, List.dropLast_cons_of_ne_nil, same_keys_self]

/-- Method `hash` leaves both key slots of the keyring as they were. -/
theorem ecdh_hash_keys (B : Build) (e : ecdh) (args : List LuaValue) :
    same_keys e (ecdh_hash B ⟨.ecdh e :: args⟩).state := by
  unfold ecdh_hash
  have hQ := same_keys_self e args
  refine bind_read_state _ _ _ _ (ecdh_arg_read e args) hQ (fun _ => ?_)
  refine bind_read_state _ _ _ _ (o_arg_read 2 _) hQ (fun i => ?_)
  simp [bind, LuaM.bind, pure, o_new, store, Res.state, same_keys_self]

/-- Method `hmac` leaves both key slots of the keyring as they were. -/
theorem ecdh_hmac_keys (B : Build) (e : ecdh) (args : List LuaValue) :
    same_keys e (ecdh_hmac B ⟨.ecdh e :: args⟩).state := by
  unfold ecdh_hmac
  have hQ := same_keys_self e args
  refine bind_read_state _ _ _ _ (ecdh_arg_read e args) hQ (fun e1 => ?_)
  refine bind_read_state _ _ _ _ (o_arg_read 2 _) hQ (fun k => ?_)
  refine bind_read_state _ _ _ _ (o_arg_read 3 _) hQ (fun i => ?_)
  refine bind_read_state _ _ _ _ (luaL_optinteger_read 4 _ _) hQ (fun len => ?_)
  by_cases hrc : (B.HMAC e1.hash i k (c_int len) ⟨0, c_int len, []⟩).1 = 0 <;>
  simp [bind, LuaM.bind, pure, o_new, store, lua_pop, lua_pushboolean, lua_push, hrc,
    Res.state, List.dropLast_cons_of_ne_nil, same_keys_self]

/-- Method `kdf2` leaves both key slots of the keyring as they were. -/
theorem ecdh_kdf2_keys (B : Build) (e : ecdh) (args : List LuaValue) :
    same_keys e (ecdh_kdf2 B ⟨.ecdh e :: args⟩).state := by
  unfold ecdh_kdf2
  have hQ := same_keys_self e args
  refine bind_read_state _ _ _ _ (ecdh_arg_read e args) hQ (fun e1 => ?_)
  refine bind_read_state _ _ _ _ (o_arg_read 2 _) hQ (fun p => ?_)
  refine bind_read_state _ _ _ _ (o_arg_read 3 _) hQ (fun i => ?_)
  refine bind_read_state _ _ _ _ (luaL_optinteger_read 4 _ _) hQ (fun len => ?_)
  simp [bind, LuaM.bind, pure, o_new, store, Res.state, same_keys_self]

/-- Method `pbkdf2` leaves both key slots of the keyring as they were. -/
theorem ecdh_pbkdf2_keys (B : Build) (e : ecdh) (args : List LuaValue) :
    same_keys e (ecdh_pbkdf2 B ⟨.ecdh e :: args⟩).state := by
  unfold ecdh_pbkdf2
  have hQ := same_keys_self e args
  refine bind_read_state _ _ _ _ (ecdh_arg_read e args) hQ (fun e1 => ?_)
  refine bind_read_state _ _ _ _ (o_arg_read 2 _) hQ (fun k => ?_)
  refine bind_read_state _ _ _ _ (o_arg_read 3 _) hQ (fun s => ?_)
  refine bind_read_state _ _ _ _ (luaL_optinteger_read 4 _ _) hQ (fun iter => ?_)
  refine bind_read_state _ _ _ _ (luaL_optinteger_read 5 _ _) hQ (fun len => ?_)
  simp [bind, LuaM.bind, pure, o_new, store, Res.state, same_keys_self]

/-- Method `random` advances the generator and leaves both key slots as they were. -/
theorem ecdh_random_keys (B : Build) (e : ecdh) (args : List LuaValue) :
    same_keys e (ecdh_random B ⟨.ecdh e :: args⟩).state := by
  unfold ecdh_random
  have hQ := same_keys_self e args
  rw [show (ecdh_arg 1 >>= _) = LuaM.bind (ecdh_arg 1) _ from rfl]
  simp only [LuaM.bind, ecdh_arg_self]
  refine bind_read_state _ _ _ _ (luaL_optinteger_read 2 _ _) hQ (fun len => ?_)
  simp [bind, LuaM.bind, pure, o_new, store, Res.state]
  exact same_keys_cons e _ _ rfl rfl

/-- Finaliser `__gc` leaves both key slots of the keyring as they were. -/
theorem ecdh_destroy_keys (B : Build) (e : ecdh) (args : List LuaValue) :
    same_keys e (ecdh_destroy B ⟨.ecdh e :: args⟩).state := by
  simp [ecdh_destroy, bind, LuaM.bind, pure, ecdh_arg_self, Res.state, same_keys_self]


/-- Method `session` leaves both key slots of the keyring as they were. -/
theorem ecdh_session_keys (B : Build) (e : ecdh) (args : List LuaValue) :
    same_keys e (ecdh_session B ⟨.ecdh e :: args⟩).state := by
  unfold ecdh_session
  have hQ := same_keys_self e args
  refine bind_read_state _ _ _ _ (ecdh_arg_read e args) hQ (fun e1 => ?_)
  refine bind_read_state _ _ _ _ (getL_read _) hQ (fun L => ?_)
  refine bind_read_state _ _ _ _ ?_ hQ (fun pubkey => ?_)
  · generalize luaL_testudata L 2 "zenroom.ecdh" = x
    generalize luaL_testudata L 2 "zenroom.octet" = y
    rcases x with _ | (_ | _ | _ | _ | _ | pk | _) <;>
      rcases y with _ | (_ | _ | _ | _ | o | _ | _) <;>
      first
        | exact Or.inl ⟨_, rfl⟩
        | exact Or.inr ⟨_, rfl⟩
        | (cases hpk : pk.pubkey with
            | none => exact Or.inr ⟨_, by simp only [hpk]; rfl⟩
            | some pubkey => exact Or.inl ⟨pubkey, by simp only [hpk]; rfl⟩)
  · by_cases hv : e1.ECP__PUBLIC_KEY_VALIDATE pubkey = ECDH_INVALID_PUBLIC_KEY B <;>
    simp [bind, LuaM.bind, pure, o_new, store, lerror, hv, Res.state, same_keys_self]

/-- Method `checkpub` leaves both key slots of the keyring as they were. -/
theorem ecdh_checkpub_keys (B : Build) (e : ecdh) (args : List LuaValue) :
    same_keys e (ecdh_checkpub B ⟨.ecdh e :: args⟩).state := by
  unfold ecdh_checkpub
  have hQ := same_keys_self e args
  refine bind_read_state _ _ _ _ (ecdh_arg_read e args) hQ (fun e1 => ?_)
  refine bind_read_state _ _ _ _ (getL_read _) hQ (fun L => ?_)
  refine bind_read_state _ _ _ _ ?_ hQ (fun pk => ?_)
  · by_cases hn : lua_isnoneornil L 2 = true
    · simp only [hn, if_true]
      cases e1.pubkey with
      | none => exact Or.inr ⟨_, rfl⟩
      | some pk => exact Or.inl ⟨pk, rfl⟩
    · simp only [hn, Bool.false_eq_true, if_false]
      exact o_arg_read 2 _
  · by_cases hv : e1.ECP__PUBLIC_KEY_VALIDATE pk = 0 <;>
    simp [bind, LuaM.bind, pure, lua_pushboolean, lua_push, hv, Res.state, same_keys_self]

/-- Closed form of the setter `private(key)` on an octet argument. -/
theorem ecdh_private_eval_octet (B : Build) (e : ecdh) (o : octet) (args : List LuaValue) :
    ecdh_private B ⟨.ecdh e :: .octet o :: args⟩ =
      if e.seckey.isSome then
        .raised (.lerror KEYPROT_msg) ⟨.ecdh e :: .octet o :: args⟩
      else
        let r := e.ECP__KEY_PAIR_GENERATE none o ⟨0, e.publen, []⟩
        if e.ECP__PUBLIC_KEY_VALIDATE r.2.2.2 = ECDH_INVALID_PUBLIC_KEY B then
          .raised (.lerror "Invalid public key generation.")
            ⟨.ecdh { e with seckey := some r.2.2.1 } :: .octet r.2.2.1 ::
              (args ++ [.octet r.2.2.2])⟩
        else
          .ok 1 ⟨.ecdh { e with seckey := some r.2.2.1, pubkey := some r.2.2.2 } ::
            .octet r.2.2.1 :: (args ++ [.octet r.2.2.2])⟩ := by
  by_cases hs : e.seckey.isSome = true
  · simp [ecdh_private, bind, LuaM.bind, ecdh_arg_self, getL, lua_isnoneornil, index2value,
      KEYPROT, lerror, hs]
  by_cases hv : e.ECP__PUBLIC_KEY_VALIDATE
      (e.ECP__KEY_PAIR_GENERATE none o ⟨0, e.publen, []⟩).2.2.2 = ECDH_INVALID_PUBLIC_KEY B
  · simp [ecdh_private, bind, LuaM.bind, ecdh_arg_self, getL, lua_isnoneornil, index2value,
      KEYPROT, lerror, pure, o_arg, o_new, store, luaL_testudata, LuaValue.tname, hs, hv]
  · simp [ecdh_private, bind, LuaM.bind, ecdh_arg_self, getL, lua_isnoneornil, index2value,
      KEYPROT, lerror, pure, o_arg, o_new, store, luaL_testudata, LuaValue.tname, hs, hv]

/-- On a keyring that holds a secret key, `private` either hands out a copy
(no argument) or fails with the `KEYPROT` error; the state keeps its keyring. -/
theorem ecdh_private_keys_of_seckey (B : Build) (e : ecdh) (sk : octet)
    (args : List LuaValue) (hsk : e.seckey = some sk) :
    same_keys e (ecdh_private B ⟨.ecdh e :: args⟩).state ∧
    (lua_isnoneornil ⟨.ecdh e :: args⟩ 2 = false →
      ecdh_private B ⟨.ecdh e :: args⟩ = .raised (.lerror KEYPROT_msg) ⟨.ecdh e :: args⟩) := by
  by_cases hn : lua_isnoneornil ⟨.ecdh e :: args⟩ 2 = true
  · simp [ecdh_private, bind, LuaM.bind, ecdh_arg_self, getL, hn, hsk, o_dup, pure, Res.state,
      same_keys_self]
  · simp [ecdh_private, bind, LuaM.bind, ecdh_arg_self, getL, hn, hsk, KEYPROT, lerror,
      Res.state, same_keys_self]

/-- Method `public` never touches the secret-key slot. -/
theorem ecdh_public_seckey (B : Build) (e : ecdh) (args : List LuaValue) :
    ∃ e1, keyring (ecdh_public B ⟨.ecdh e :: args⟩).state = some e1 ∧ e1.seckey = e.seckey := by
  unfold ecdh_public
  have hQ : ∃ e1, keyring (⟨.ecdh e :: args⟩ : lua_State) = some e1 ∧ e1.seckey = e.seckey :=
    ⟨e, rfl, rfl⟩
  rw [show (ecdh_arg 1 >>= _) = LuaM.bind (ecdh_arg 1) _ from rfl]
  simp only [LuaM.bind, ecdh_arg_self]
  refine bind_read_state (fun L => ∃ e1, keyring L = some e1 ∧ e1.seckey = e.seckey)
    _ _ _ (getL_read _) hQ (fun L => ?_)
  by_cases hn : lua_isnoneornil L 2 = true
  · simp only [hn, if_true]
    cases hp : e.pubkey with
    | none => simpa [lerror, Res.state] using hQ
    | some pubkey =>
      by_cases hv : e.ECP__PUBLIC_KEY_VALIDATE pubkey = ECDH_INVALID_PUBLIC_KEY B
      · simpa [lerror, Res.state, hv] using hQ
      · simp [hv, bind, LuaM.bind, o_dup, pure, Res.state, keyring, index2value]
  · simp only [hn, Bool.false_eq_true, if_false]
    by_cases hp : e.pubkey.isSome = true
    · simpa [hp, bind, LuaM.bind, KEYPROT, lerror, Res.state] using hQ
    · simp only [hp, Bool.false_eq_true, if_false]
      rw [show ((pure () : LuaM Unit) >>= _) = LuaM.bind (pure ()) _ from rfl]
      simp only [LuaM.bind, pure]
      refine bind_read_state (fun L => ∃ e1, keyring L = some e1 ∧ e1.seckey = e.seckey)
        _ _ _ (o_arg_read 2 _) hQ (fun o => ?_)
      by_cases hv : e.ECP__PUBLIC_KEY_VALIDATE o = ECDH_INVALID_PUBLIC_KEY B
      · simpa [lerror, Res.state, hv] using hQ
      · simp [hv, bind, LuaM.bind, store, pure, Res.state, keyring, index2value]


/-- Closed form of the setter `public(key)` on an octet argument. -/
theorem ecdh_public_eval_octet (B : Build) (e : ecdh) (o : octet) (args : List LuaValue) :
    ecdh_public B ⟨.ecdh e :: .octet o :: args⟩ =
      if e.pubkey.isSome then
        .raised (.lerror KEYPROT_msg) ⟨.ecdh e :: .octet o :: args⟩
      else if e.ECP__PUBLIC_KEY_VALIDATE o = ECDH_INVALID_PUBLIC_KEY B then
        .raised (.lerror "Public key argument is invalid.") ⟨.ecdh e :: .octet o :: args⟩
      else
        .ok 0 ⟨.ecdh { e with pubkey := some o } :: .octet o :: args⟩ := by
  by_cases hp : e.pubkey.isSome = true
  · simp [ecdh_public, bind, LuaM.bind, ecdh_arg_self, getL, lua_isnoneornil, index2value,
      KEYPROT, lerror, hp]
  by_cases hv : e.ECP__PUBLIC_KEY_VALIDATE o = ECDH_INVALID_PUBLIC_KEY B
  · simp [ecdh_public, bind, LuaM.bind, ecdh_arg_self, getL, lua_isnoneornil, index2value,
      KEYPROT, lerror, pure, o_arg, hp, hv]
  · simp [ecdh_public, bind, LuaM.bind, ecdh_arg_self, getL, lua_isnoneornil, index2value,
      KEYPROT, lerror, pure, o_arg, store, hp, hv]

/-- Closed form of `checkpub(key)` on an octet argument. -/
theorem ecdh_checkpub_eval_octet (B : Build) (e : ecdh) (o : octet) (args : List LuaValue) :
    ecdh_checkpub B ⟨.ecdh e :: .octet o :: args⟩ =
      .ok 1 ⟨.ecdh e :: .octet o ::
        (args ++ [.boolean (decide (e.ECP__PUBLIC_KEY_VALIDATE o = 0))])⟩ := by
  by_cases hv : e.ECP__PUBLIC_KEY_VALIDATE o = 0 <;>
  simp [ecdh_checkpub, bind, LuaM.bind, ecdh_arg_self, getL, lua_isnoneornil, index2value,
    o_arg, pure, hv, lua_pushboolean, lua_push]

/-! ## Claims C3 to C7 -/

/-- C3 (code at the failing input): on a fresh `ed25519` keyring, `public(P)`
stores `P` and leaves the secret slot empty; `private(k)` on that keyring then
succeeds and the stored public key is the derived octet, no longer `P`. -/
theorem private_overwrites_public :
    ∃ e1 e2 L,
      keyring (ecdh_public (stubBuild true)
        ⟨[.ecdh (demoKeyring 0), .octet ⟨2, 2, [1, 2]⟩]⟩).state = some e1 ∧
      e1.pubkey = some ⟨2, 2, [1, 2]⟩ ∧ e1.seckey = none ∧
      ecdh_private (stubBuild true) ⟨[.ecdh e1, .octet ⟨1, 1, [7]⟩]⟩ = .ok 1 L ∧
      keyring L = some e2 ∧
      e2.pubkey = some ⟨0, 64, []⟩ ∧ e2.pubkey ≠ e1.pubkey :=
  ⟨_, _, _, rfl, rfl, rfl, rfl, rfl, rfl, by decide⟩

/-- C4: on a keyring that holds a secret key `sk`, every registered method, on
any further arguments, ends (returning or raising) with the keyring still at
index 1 and `sk` still in its secret slot; `keygen` fails with the `KEYPROT`
error, and so does `private` whenever it is given a key argument. -/
theorem seckey_never_reassigned (B : Build) (e : ecdh) (sk : octet) (args : List LuaValue)
    (name : String) (f : LuaM Int) (hf : (name, f) ∈ ecdh_methods B)
    (hsk : e.seckey = some sk) :
    (∃ e1, keyring (f ⟨.ecdh e :: args⟩).state = some e1 ∧ e1.seckey = some sk) ∧
    (name = "keygen" →
      f ⟨.ecdh e :: args⟩ = .raised (.lerror KEYPROT_msg) ⟨.ecdh e :: args⟩) ∧
    (name = "private" → lua_isnoneornil ⟨.ecdh e :: args⟩ 2 = false →
      f ⟨.ecdh e :: args⟩ = .raised (.lerror KEYPROT_msg) ⟨.ecdh e :: args⟩) := by
  have key : ∀ L, same_keys e L → ∃ e1, keyring L = some e1 ∧ e1.seckey = some sk := by
    rintro L ⟨e1, h1, h2, -⟩
    exact ⟨e1, h1, h2.trans hsk⟩
  have other : ∀ (m : String) (g : LuaM Int), m ≠ "keygen" → m ≠ "private" →
      same_keys e (g ⟨.ecdh e :: args⟩).state →
      (∃ e1, keyring (g ⟨.ecdh e :: args⟩).state = some e1 ∧ e1.seckey = some sk) ∧
      (m = "keygen" →
        g ⟨.ecdh e :: args⟩ = .raised (.lerror KEYPROT_msg) ⟨.ecdh e :: args⟩) ∧
      (m = "private" → lua_isnoneornil ⟨.ecdh e :: args⟩ 2 = false →
        g ⟨.ecdh e :: args⟩ = .raised (.lerror KEYPROT_msg) ⟨.ecdh e :: args⟩) :=
    fun m g h1 h2 hk => ⟨key _ hk, fun h => absurd h h1, fun h => absurd h h2⟩
  unfold ecdh_methods at hf
  rcases List.mem_cons.1 hf with h | hf
  · cases h
    exact other _ _ (by decide) (by decide) (ecdh_random_keys B e args)
  rcases List.mem_cons.1 hf with h | hf
  · cases h
    have hk : ecdh_keygen B ⟨.ecdh e :: args⟩
        = .raised (.lerror KEYPROT_msg) ⟨.ecdh e :: args⟩ := by
      rw [ecdh_keygen_eval]
      simp [hsk]
    refine ⟨?_, fun _ => hk, fun h => absurd h (by decide)⟩
    rw [hk]
    exact ⟨e, rfl, hsk⟩
  rcases List.mem_cons.1 hf with h | hf
  · cases h
    exact other _ _ (by decide) (by decide) (ecdh_session_keys B e args)
  rcases List.mem_cons.1 hf with h | hf
  · cases h
    obtain ⟨e1, h1, h2⟩ := ecdh_public_seckey B e args
    exact ⟨⟨e1, h1, h2.trans hsk⟩, fun h => absurd h (by decide), fun h => absurd h (by decide)⟩
  rcases List.mem_cons.1 hf with h | hf
  · cases h
    obtain ⟨h1, h2⟩ := ecdh_private_keys_of_seckey B e sk args hsk
    exact ⟨key _ h1, fun h => absurd h (by decide), fun _ hn => h2 hn⟩
  rcases List.mem_cons.1 hf with h | hf
  · cases h
    exact other _ _ (by decide) (by decide) (ecdh_encrypt_keys B e args)
  rcases List.mem_cons.1 hf with h | hf
  · cases h
    exact other _ _ (by decide) (by decide) (ecdh_aead_encrypt_keys B e args)
  rcases List.mem_cons.1 hf with h | hf
  · cases h
    exact other _ _ (by decide) (by decide) (ecdh_decrypt_keys B e args)
  rcases List.mem_cons.1 hf with h | hf
  · cases h
    exact other _ _ (by decide) (by decide) (ecdh_aead_decrypt_keys B e args)
  rcases List.mem_cons.1 hf with h | hf
  · cases h
    exact other _ _ (by decide) (by decide) (ecdh_hash_keys B e args)
  rcases List.mem_cons.1 hf with h | hf
  · cases h
    exact other _ _ (by decide) (by decide) (ecdh_hmac_keys B e args)
  rcases List.mem_cons.1 hf with h | hf
  · cases h
    exact other _ _ (by decide) (by decide) (ecdh_kdf2_keys B e args)
  rcases List.mem_cons.1 hf with h | hf
  · cases h
    exact other _ _ (by decide) (by decide) (ecdh_pbkdf2_keys B e args)
  rcases List.mem_cons.1 hf with h | hf
  · cases h
    exact other _ _ (by decide) (by decide) (ecdh_checkpub_keys B e args)
  rcases List.mem_cons.1 hf with h | hf
  · cases h
    exact other _ _ (by decide) (by decide) (ecdh_destroy_keys B e args)
  · cases hf

/-- Witness for C4: `private(k)` on an `ed25519` keyring that holds a secret key. -/
theorem seckey_never_reassigned_witness :
    (∃ e1, keyring (ecdh_private (stubBuild true)
        ⟨.ecdh { demoKeyring 0 with seckey := some ⟨0, 32, []⟩ } :: [.octet ⟨1, 1, [7]⟩]⟩).state
          = some e1 ∧ e1.seckey = some ⟨0, 32, []⟩) ∧
    ("private" = "keygen" →
      ecdh_private (stubBuild true)
        ⟨.ecdh { demoKeyring 0 with seckey := some ⟨0, 32, []⟩ } :: [.octet ⟨1, 1, [7]⟩]⟩
        = .raised (.lerror KEYPROT_msg)
          ⟨.ecdh { demoKeyring 0 with seckey := some ⟨0, 32, []⟩ } :: [.octet ⟨1, 1, [7]⟩]⟩) ∧
    ("private" = "private" →
      lua_isnoneornil
        ⟨.ecdh { demoKeyring 0 with seckey := some ⟨0, 32, []⟩ } :: [.octet ⟨1, 1, [7]⟩]⟩ 2
          = false →
      ecdh_private (stubBuild true)
        ⟨.ecdh { demoKeyring 0 with seckey := some ⟨0, 32, []⟩ } :: [.octet ⟨1, 1, [7]⟩]⟩
        = .raised (.lerror KEYPROT_msg)
          ⟨.ecdh { demoKeyring 0 with seckey := some ⟨0, 32, []⟩ } :: [.octet ⟨1, 1, [7]⟩]⟩) :=
  seckey_never_reassigned (stubBuild true) { demoKeyring 0 with seckey := some ⟨0, 32, []⟩ }
    ⟨0, 32, []⟩ [.octet ⟨1, 1, [7]⟩] "private" (ecdh_private (stubBuild true))
    (by simp [ecdh_methods]) rfl

/-- C5 (code at the failing input): on a keyring whose secret slot is empty,
`session(peer)` does not fail for want of a secret key, whether the peer is an
octet or a keyring holding a public key: when the peer key passes validation
it calls `ECP__SVDP_DH` with a `NULL` secret and returns one value, the octet
the backend wrote; the only failure left is the one for an invalid peer key. -/
theorem session_without_seckey (B : Build) (e p : ecdh) (o : octet) (args : List LuaValue) :
    ecdh_session B ⟨.ecdh { e with seckey := none } :: .octet o :: args⟩ =
      (if e.ECP__PUBLIC_KEY_VALIDATE o = ECDH_INVALID_PUBLIC_KEY B then
        .raised (.lerror "ecdh_session: argument found, but is an invalid key")
          ⟨.ecdh { e with seckey := none } :: .octet o :: args⟩
      else
        .ok 1 ⟨.ecdh { e with seckey := none } :: .octet o ::
          (args ++ [.octet (e.ECP__SVDP_DH none o ⟨0, e.keysize, []⟩).2])⟩) ∧
    ecdh_session B
        ⟨.ecdh { e with seckey := none } :: .ecdh { p with pubkey := some o } :: args⟩ =
      (if e.ECP__PUBLIC_KEY_VALIDATE o = ECDH_INVALID_PUBLIC_KEY B then
        .raised (.lerror "ecdh_session: argument found, but is an invalid key")
          ⟨.ecdh { e with seckey := none } :: .ecdh { p with pubkey := some o } :: args⟩
      else
        .ok 1 ⟨.ecdh { e with seckey := none } :: .ecdh { p with pubkey := some o } ::
          (args ++ [.octet (e.ECP__SVDP_DH none o ⟨0, e.keysize, []⟩).2])⟩) := by
  constructor
  · rw [ecdh_session_eval_octet]
  · rw [ecdh_session_eval_keyring]

/-- C6 (code at the failing input): when `private(k)` fails because the derived
public key is rejected, the keyring is not as it was: the secret slot, empty
before the call, now holds the imported key. -/
theorem private_invalid_keeps_seckey (B : Build) (e : ecdh) (k : octet) (args : List LuaValue)
    (hs : e.seckey = none)
    (hv : e.ECP__PUBLIC_KEY_VALIDATE
      (e.ECP__KEY_PAIR_GENERATE none k ⟨0, e.publen, []⟩).2.2.2 = ECDH_INVALID_PUBLIC_KEY B) :
    ∃ L e1, ecdh_private B ⟨.ecdh e :: .octet k :: args⟩
        = .raised (.lerror "Invalid public key generation.") L ∧
      keyring L = some e1 ∧
      e1.seckey = some (e.ECP__KEY_PAIR_GENERATE none k ⟨0, e.publen, []⟩).2.2.1 ∧
      e1.seckey ≠ e.seckey ∧ e1.pubkey = e.pubkey := by
  rw [ecdh_private_eval_octet]
  simp only [hs, Option.isSome_none, Bool.false_eq_true, if_false, hv, if_true]
  exact ⟨_, _, rfl, rfl, rfl, by simp, rfl⟩

/-- Witness for C6: `private(k)` on a fresh keyring whose backend rejects the
derived public key. -/
theorem private_invalid_keeps_seckey_witness :
    ∃ L e1, ecdh_private (stubBuild true) ⟨.ecdh rejectingKeyring :: .octet ⟨1, 1, [7]⟩ :: []⟩
        = .raised (.lerror "Invalid public key generation.") L ∧
      keyring L = some e1 ∧
      e1.seckey = some (rejectingKeyring.ECP__KEY_PAIR_GENERATE none ⟨1, 1, [7]⟩
        ⟨0, rejectingKeyring.publen, []⟩).2.2.1 ∧
      e1.seckey ≠ rejectingKeyring.seckey ∧ e1.pubkey = rejectingKeyring.pubkey :=
  private_invalid_keeps_seckey (stubBuild true) rejectingKeyring ⟨1, 1, [7]⟩ [] rfl rfl

/-- C7: when `keygen()` on a keyring with no keys fails because the generated
public key is rejected by the backend, it raises (so no value reaches the
caller) and the keyring ends with both key slots still empty. -/
theorem keygen_invalid_stores_nothing (B : Build) (e : ecdh) (args : List LuaValue)
    (hs : e.seckey = none) (hp : e.pubkey = none)
    (hv : e.ECP__PUBLIC_KEY_VALIDATE
      (e.ECP__KEY_PAIR_GENERATE e.rng ⟨0, e.seclen, []⟩ ⟨0, e.publen, []⟩).2.2.2
        = ECDH_INVALID_PUBLIC_KEY B) :
    ∃ L e1, ecdh_keygen B ⟨.ecdh e :: args⟩
        = .raised (.lerror "ecdh_keygen: generated public key is invalid") L ∧
      (ecdh_keygen B ⟨.ecdh e :: args⟩).values = [] ∧
      keyring L = some e1 ∧ e1.seckey = none ∧ e1.pubkey = none := by
  rw [ecdh_keygen_eval]
  simp only [hs, hp, Option.isSome_none, Bool.false_eq_true, if_false, hv, if_true]
  exact ⟨_, _, rfl, rfl, rfl, rfl, rfl⟩

/-- Witness for C7: `keygen()` on a fresh keyring whose backend rejects the
generated public key. -/
theorem keygen_invalid_stores_nothing_witness :
    ∃ L e1, ecdh_keygen (stubBuild true) ⟨.ecdh rejectingKeyring :: []⟩
        = .raised (.lerror "ecdh_keygen: generated public key is invalid") L ∧
      (ecdh_keygen (stubBuild true) ⟨.ecdh rejectingKeyring :: []⟩).values = [] ∧
      keyring L = some e1 ∧ e1.seckey = none ∧ e1.pubkey = none :=
  keygen_invalid_stores_nothing (stubBuild true) rejectingKeyring [] rfl rfl rfl


/-! ## Curve names -/

theorem Char_toNat_inj (a b : Char) (h : a.toNat = b.toNat) : a = b := by
  rw [← Char.ofNat_toNat a, ← Char.ofNat_toNat b, h]

theorem toLower_eq_NUL (c : Char) : c.toLower = NUL ↔ c = NUL := by
  unfold Char.toLower
  simp only
  split_ifs with h
  · obtain ⟨hlo, hhi⟩ := h
    have hc : c ≠ NUL := by
      rintro rfl
      revert hlo
      decide
    simp only [hc, iff_false]
    generalize c.toNat = n at hlo hhi
    interval_cases n <;> decide
  · rfl

theorem strcasecmp_of_eq_ignoring_case (s t : List Char) (h : eq_ignoring_case s t) :
    strcasecmp s t = 0 := by
  unfold eq_ignoring_case at h
  induction s generalizing t with
  | nil =>
    cases t with
    | nil => rfl
    | cons b bs => simp at h
  | cons a as ih =>
    cases t with
    | nil => simp at h
    | cons b bs =>
      simp only [List.map_cons, List.cons.injEq] at h
      obtain ⟨hab, htl⟩ := h
      simp only [strcasecmp, hab, ne_eq, not_true_eq_false, if_false]
      split_ifs
      · rfl
      · exact ih bs htl

theorem cstr_cons_of_ne (a : Char) (as : List Char) (h : a ≠ NUL) :
    cstr (a :: as) = a :: cstr as := by
  simp [cstr, List.takeWhile, h]

theorem cstr_cons_NUL (as : List Char) : cstr (NUL :: as) = [] := by
  simp [cstr, List.takeWhile]

theorem eq_of_strcasecmp (s t : List Char) (h : strcasecmp s t = 0) :
    (cstr s).map Char.toLower = (cstr t).map Char.toLower := by
  induction s generalizing t with
  | nil =>
    cases t with
    | nil => rfl
    | cons b bs =>
      simp only [strcasecmp] at h
      have hb : b.toLower = NUL := Char_toNat_inj _ _ (by simp [NUL]; omega)
      rw [(toLower_eq_NUL b).1 hb, cstr_cons_NUL]
      rfl
  | cons a as ih =>
    cases t with
    | nil =>
      simp only [strcasecmp] at h
      have ha : a.toLower = NUL := Char_toNat_inj _ _ (by simp [NUL]; omega)
      rw [(toLower_eq_NUL a).1 ha, cstr_cons_NUL]
      rfl
    | cons b bs =>
      simp only [strcasecmp] at h
      by_cases hab : a.toLower = b.toLower
      · simp only [hab, ne_eq, not_true_eq_false, if_false] at h
        by_cases hb : b.toLower = NUL
        · have ha : a.toLower = NUL := hab.trans hb
          rw [(toLower_eq_NUL a).1 ha, (toLower_eq_NUL b).1 hb, cstr_cons_NUL, cstr_cons_NUL]
        · have ha : a.toLower ≠ NUL := fun h0 => hb (hab.symm.trans h0)
          simp only [hb, if_false] at h
          rw [cstr_cons_of_ne a as (fun h0 => ha ((toLower_eq_NUL a).2 h0)),
            cstr_cons_of_ne b bs (fun h0 => hb ((toLower_eq_NUL b).2 h0))]
          simp only [List.map_cons, hab, ih bs h]
      · simp only [ne_eq, hab, not_false_eq_true, if_true] at h
        exact absurd (Char_toNat_inj _ _ (by omega)) hab

/-- A name that agrees with one of the three spellings up to letter case
passes the test of `ecdh_new_curve`. -/
theorem curve_supported_of_alias (s a : List Char) (ha : a ∈ curve_aliases)
    (h : eq_ignoring_case s a) : curve_supported s = true := by
  have h0 := strcasecmp_of_eq_ignoring_case s a h
  simp only [curve_aliases, List.mem_cons, List.mem_singleton, List.not_mem_nil,
    or_false] at ha
  unfold curve_supported
  rcases ha with rfl | rfl | rfl <;> rw [h0] <;> simp

/-- A name whose C string agrees with none of the three spellings up to letter
case fails the test of `ecdh_new_curve`. -/
theorem curve_supported_false (s : List Char)
    (h : ∀ a ∈ curve_aliases, ¬ eq_ignoring_case (cstr s) a) : curve_supported s = false := by
  have key : ∀ a ∈ curve_aliases, cstr a = a → strcasecmp s a ≠ 0 := by
    intro a ha hca h0
    apply h a ha
    have := eq_of_strcasecmp s a h0
    rwa [hca] at this
  have h1 := key "ec25519".toList (by simp [curve_aliases]) (by decide)
  have h2 := key "ed25519".toList (by simp [curve_aliases]) (by decide)
  have h3 := key "25519".toList (by simp [curve_aliases]) (by decide)
  unfold curve_supported
  simp only [h1, h2, h3]
  rfl


/-! ## Claims C8 to C10 -/

/-- C8: for two names that each agree, up to letter case, with one of
`ec25519`, `ed25519`, `25519`, `ecdh_new_curve` returns a record in both cases,
and the two records have the same `keysize`, `fieldsize`, `hash` and the same
seven backend functions. -/
theorem aliases_same_backend (B : Build) (s1 s2 a1 a2 : List Char) (L1 L2 : lua_State)
    (ha1 : a1 ∈ curve_aliases) (ha2 : a2 ∈ curve_aliases)
    (h1 : eq_ignoring_case s1 a1) (h2 : eq_ignoring_case s2 a2) :
    ∃ p1 e1 M1 p2 e2 M2,
      ecdh_new_curve B s1 L1 = .ok (some (p1, e1)) M1 ∧
      ecdh_new_curve B s2 L2 = .ok (some (p2, e2)) M2 ∧
      e1.keysize = e2.keysize ∧ e1.fieldsize = e2.fieldsize ∧ e1.hash = e2.hash ∧
      e1.ECP__KEY_PAIR_GENERATE = e2.ECP__KEY_PAIR_GENERATE ∧
      e1.ECP__PUBLIC_KEY_VALIDATE = e2.ECP__PUBLIC_KEY_VALIDATE ∧
      e1.ECP__SVDP_DH = e2.ECP__SVDP_DH ∧
      e1.ECP__ECIES_ENCRYPT = e2.ECP__ECIES_ENCRYPT ∧
      e1.ECP__ECIES_DECRYPT = e2.ECP__ECIES_DECRYPT ∧
      e1.ECP__SP_DSA = e2.ECP__SP_DSA ∧
      e1.ECP__VP_DSA = e2.ECP__VP_DSA := by
  have c1 := curve_supported_of_alias s1 a1 ha1 h1
  have c2 := curve_supported_of_alias s2 a2 ha2 h2
  refine ⟨L1.stack.length + 1, ecdh_curve25519 B s1,
    ⟨L1.stack ++ [.userdata (ecdh_curve25519 B s1)]⟩,
    L2.stack.length + 1, ecdh_curve25519 B s2,
    ⟨L2.stack ++ [.userdata (ecdh_curve25519 B s2)]⟩, ?_, ?_,
    rfl, rfl, rfl, rfl, rfl, rfl, rfl, rfl, rfl, rfl⟩
  · rw [ecdh_new_curve_eval, if_pos c1]
  · rw [ecdh_new_curve_eval, if_pos c2]

/-- Witness for C8: the names `ED25519` and `25519`. -/
theorem aliases_same_backend_witness :
    ∃ p1 e1 M1 p2 e2 M2,
      ecdh_new_curve (stubBuild true) "ED25519".toList ⟨[]⟩ = .ok (some (p1, e1)) M1 ∧
      ecdh_new_curve (stubBuild true) "25519".toList ⟨[]⟩ = .ok (some (p2, e2)) M2 ∧
      e1.keysize = e2.keysize ∧ e1.fieldsize = e2.fieldsize ∧ e1.hash = e2.hash ∧
      e1.ECP__KEY_PAIR_GENERATE = e2.ECP__KEY_PAIR_GENERATE ∧
      e1.ECP__PUBLIC_KEY_VALIDATE = e2.ECP__PUBLIC_KEY_VALIDATE ∧
      e1.ECP__SVDP_DH = e2.ECP__SVDP_DH ∧
      e1.ECP__ECIES_ENCRYPT = e2.ECP__ECIES_ENCRYPT ∧
      e1.ECP__ECIES_DECRYPT = e2.ECP__ECIES_DECRYPT ∧
      e1.ECP__SP_DSA = e2.ECP__SP_DSA ∧
      e1.ECP__VP_DSA = e2.ECP__VP_DSA :=
  aliases_same_backend (stubBuild true) "ED25519".toList "25519".toList
    "ed25519".toList "25519".toList ⟨[]⟩ ⟨[]⟩
    (by decide) (by decide) (by decide) (by decide)

/-- C9: when the curve name read from argument 1 agrees, as a C string, with
none of the three spellings up to letter case, `ecdh_new_curve` returns `NULL`
without touching the stack, and `new` raises out of `ecdh_new` (the failure
the spec calls `UnsupportedCurve`): the state is unchanged, no keyring is
created and no value is returned. -/
theorem unknown_curve_rejected (B : Build) (W : Env) (L : lua_State) (s : String)
    (hs : luaL_optstring 1 "ed25519" L = .ok s L)
    (hno : ∀ a ∈ curve_aliases, ¬ eq_ignoring_case (cstr s.toList) a) :
    ecdh_new_curve B s.toList L = .ok none L ∧
    lua_new_ecdh B W L = .raised (.SAFE "ecdh_new") L ∧
    (lua_new_ecdh B W L).values = [] := by
  have hc := curve_supported_false s.toList hno
  have hnew := (ecdh_new_eval B W s.toList L).1 (by rw [hc]; exact Bool.false_ne_true)
  have hl : lua_new_ecdh B W L = .raised (.SAFE "ecdh_new") L := by
    unfold lua_new_ecdh
    simp only [bind, LuaM.bind, hs, hnew]
  refine ⟨?_, hl, ?_⟩
  · rw [ecdh_new_curve_eval, hc]
    rfl
  · rw [hl]
    rfl

/-- Witness for C9: the name `nist256`. -/
theorem unknown_curve_rejected_witness :
    ecdh_new_curve (stubBuild true) "nist256".toList ⟨[.string "nist256"]⟩
      = .ok none ⟨[.string "nist256"]⟩ ∧
    lua_new_ecdh (stubBuild true) (stubEnv 0) ⟨[.string "nist256"]⟩
      = .raised (.SAFE "ecdh_new") ⟨[.string "nist256"]⟩ ∧
    (lua_new_ecdh (stubBuild true) (stubEnv 0) ⟨[.string "nist256"]⟩).values = [] :=
  unknown_curve_rejected (stubBuild true) (stubEnv 0) ⟨[.string "nist256"]⟩ "nist256" rfl
    (by decide)

/-- C10 (code at the failing input): with the curve library's AES-GCM
(`STANDALONE` off), `aead_decrypt(key, ciphertext, iv, header, tag)` returns one
value: the output buffer when `OCT_comp` finds the supplied tag equal to the
recomputed one, and otherwise the supplied tag octet itself, because the
`false` just pushed is removed by the final `lua_pop`. Under `STANDALONE` the
one value is the output buffer whatever wolfSSL reports. In neither build is
the value `false`. -/
theorem aead_decrypt_mismatch_returns_octet (B : Build) (e : ecdh) (k i iv h t : octet) :
    (ecdh_aead_decrypt { B with STANDALONE := false }
        ⟨[.ecdh e, .octet k, .octet i, .octet iv, .octet h, .octet t]⟩).values =
      (if OCT_comp t (B.AES_GCM_DECRYPT k iv h i ⟨0, c_int (i.len + 16), []⟩ ⟨0, t.len, []⟩).2 then
        [.octet (B.AES_GCM_DECRYPT k iv h i ⟨0, c_int (i.len + 16), []⟩ ⟨0, t.len, []⟩).1]
      else [.octet t]) ∧
    (ecdh_aead_decrypt { B with STANDALONE := true }
        ⟨[.ecdh e, .octet k, .octet i, .octet iv, .octet h, .octet t]⟩).values =
      [.octet ⟨0, c_int (i.len + 16),
        (B.wc_AesGcmDecrypt (B.wc_AesGcmSetKey k.val k.len) [] i.val i.len iv.val iv.len
          t.val t.len h.val h.len).2⟩] := by
  constructor
  · by_cases hc : OCT_comp t
        (B.AES_GCM_DECRYPT k iv h i ⟨0, c_int (i.len + 16), []⟩ ⟨0, t.len, []⟩).2 = true <;>
    simp [ecdh_aead_decrypt, bind, LuaM.bind, pure, ecdh_arg_self, o_arg, index2value, o_new,
      store, lua_pop, lua_pushboolean, lua_push, hc, Res.values]
  · by_cases hrc : (B.wc_AesGcmDecrypt (B.wc_AesGcmSetKey k.val k.len) [] i.val i.len
        iv.val iv.len t.val t.len h.val h.len).1 = 0 <;>
    simp [ecdh_aead_decrypt, bind, LuaM.bind, pure, ecdh_arg_self, o_arg, index2value, o_new,
      store, lua_pop, lua_pushboolean, lua_push, hrc, Res.values]

/-! ## CBC encryption and decryption -/

/-- Closed form of `ecdh_encrypt` on octet arguments. -/
theorem ecdh_encrypt_eval (B : Build) (e : ecdh) (k m : octet) (rest : List LuaValue) :
    ecdh_encrypt B ⟨.ecdh e :: .octet k :: .octet m :: rest⟩ =
      if B.STANDALONE then
        (if (B.wc_AesCbcEncryptWithKey [] m.val m.len k.val k.len (List.replicate 16 0)).1 ≠ 0
          then .ok 1 ⟨.ecdh e :: .octet k :: .octet m :: (rest ++ [.boolean false])⟩
          else .ok 1 ⟨.ecdh e :: .octet k :: .octet m :: (rest ++ [.octet ⟨0, c_int (m.len + 15),
            (B.wc_AesCbcEncryptWithKey [] m.val m.len k.val k.len (List.replicate 16 0)).2⟩])⟩)
      else
        .ok 1 ⟨.ecdh e :: .octet k :: .octet m ::
          (rest ++ [.octet (B.AES_CBC_IV0_ENCRYPT k m ⟨0, c_int (m.len + 15), []⟩)])⟩ := by
  by_cases hS : B.STANDALONE = true
  · simp [ecdh_encrypt, bind, LuaM.bind, pure, ecdh_arg_self, o_arg, index2value, o_new,
      store, hS]
    split_ifs with h <;>
    simp [LuaM.bind, lua_pop, lua_pushboolean, lua_push, List.dropLast_cons_of_ne_nil]
  · simp [ecdh_encrypt, bind, LuaM.bind, pure, ecdh_arg_self, o_arg, index2value, o_new,
      store, hS]

/-- Closed form of `ecdh_decrypt` on octet arguments. -/
theorem ecdh_decrypt_eval (B : Build) (e : ecdh) (k c : octet) (rest : List LuaValue) :
    ecdh_decrypt B ⟨.ecdh e :: .octet k :: .octet c :: rest⟩ =
      if B.STANDALONE then
        (if (B.wc_AesCbcEncryptWithKey [] c.val c.len k.val k.len (List.replicate 16 0)).1 ≠ 0
          then .ok 1 ⟨.ecdh e :: .octet k :: .octet c :: (rest ++ [.boolean false])⟩
          else .ok 1 ⟨.ecdh e :: .octet k :: .octet c :: (rest ++ [.octet ⟨0, c_int (c.len + 16),
            (B.wc_AesCbcEncryptWithKey [] c.val c.len k.val k.len (List.replicate 16 0)).2⟩])⟩)
      else
        (if (B.AES_CBC_IV0_DECRYPT k c ⟨0, c_int (c.len + 16), []⟩).1 = 0
          then .ok 1 ⟨.ecdh e :: .octet k :: .octet c :: (rest ++ [.boolean false])⟩
          else .ok 1 ⟨.ecdh e :: .octet k :: .octet c ::
            (rest ++ [.octet (B.AES_CBC_IV0_DECRYPT k c ⟨0, c_int (c.len + 16), []⟩).2])⟩) := by
  by_cases hS : B.STANDALONE = true
  · simp [ecdh_decrypt, bind, LuaM.bind, pure, ecdh_arg_self, o_arg, index2value, o_new,
      store, hS]
    split_ifs with h <;>
    simp [LuaM.bind, lua_pop, lua_pushboolean, lua_push, List.dropLast_cons_of_ne_nil]
  · simp [ecdh_decrypt, bind, LuaM.bind, pure, ecdh_arg_self, o_arg, index2value, o_new,
      store, hS]
    split_ifs with h <;>
    simp [LuaM.bind, lua_pop, lua_pushboolean, lua_push, List.dropLast_cons_of_ne_nil]

/-- The one value of a call that returned 1 with `v` on top of three fixed
arguments and any further ones. -/
theorem values_ok_one_cons3 (a b c v : LuaValue) (rest : List LuaValue) :
    Res.values (.ok 1 ⟨a :: b :: c :: (rest ++ [v])⟩) = [v] := by
  have h : a :: b :: c :: (rest ++ [v]) = (a :: b :: c :: rest) ++ [v] := rfl
  rw [h, values_ok_one]

/-! ## Claims C11 and C12 -/

/-- C11 (code at the failing input): under `STANDALONE`, with a toy cipher in
place of wolfSSL, `encrypt(k, m)` on the bytes 1, 2, 3 hands back an octet of
length 0 (the bytes are written, nothing sets `out->len`), and `decrypt` on that
octet hands back an empty octet of length 0, not the message. For every build:
the octet of `encrypt` has its length field at 0, and `decrypt` on such an octet
runs the encryption primitive `wc_AesCbcEncryptWithKey` over an input of length
0 and hands back an octet of length 0. -/
theorem standalone_roundtrip_loses_message (B : Build) (e : ecdh) (k m : octet) :
    (ecdh_encrypt shiftBuild
        ⟨[.ecdh (demoKeyring 0), .octet ⟨1, 1, [7]⟩, .octet ⟨3, 3, [1, 2, 3]⟩]⟩).values
      = [.octet ⟨0, 18, [2, 3, 4]⟩] ∧
    (ecdh_decrypt shiftBuild
        ⟨[.ecdh (demoKeyring 0), .octet ⟨1, 1, [7]⟩, .octet ⟨0, 18, [2, 3, 4]⟩]⟩).values
      = [.octet ⟨0, 16, []⟩] ∧
    (ecdh_encrypt { B with STANDALONE := true } ⟨[.ecdh e, .octet k, .octet m]⟩).values =
      (if (B.wc_AesCbcEncryptWithKey [] m.val m.len k.val k.len (List.replicate 16 0)).1 ≠ 0
        then [.boolean false]
        else [.octet ⟨0, c_int (m.len + 15),
          (B.wc_AesCbcEncryptWithKey [] m.val m.len k.val k.len (List.replicate 16 0)).2⟩]) ∧
    (∀ cval : List Nat,
      (ecdh_decrypt { B with STANDALONE := true }
          ⟨[.ecdh e, .octet k, .octet ⟨0, c_int (m.len + 15), cval⟩]⟩).values =
        (if (B.wc_AesCbcEncryptWithKey [] cval 0 k.val k.len (List.replicate 16 0)).1 ≠ 0
          then [.boolean false]
          else [.octet ⟨0, c_int (0 + 16),
            (B.wc_AesCbcEncryptWithKey [] cval 0 k.val k.len (List.replicate 16 0)).2⟩])) := by
  refine ⟨rfl, rfl, ?_, ?_⟩
  · rw [show ([.ecdh e, .octet k, .octet m] : List LuaValue)
        = .ecdh e :: .octet k :: .octet m :: [] from rfl, ecdh_encrypt_eval]
    simp only [if_true]
    split_ifs <;> rfl
  · intro cval
    rw [show ([.ecdh e, .octet k, .octet ⟨0, c_int (m.len + 15), cval⟩] : List LuaValue)
        = .ecdh e :: .octet k :: .octet ⟨0, c_int (m.len + 15), cval⟩ :: [] from rfl, ecdh_decrypt_eval]
    simp only [if_true]
    split_ifs <;> rfl

/-- C12: `decrypt(key, ciphertext)` returns exactly one value. With the curve
library (`STANDALONE` off) it is `false` when `AES_CBC_IV0_DECRYPT` reports an
error (returns 0) and the newly allocated output buffer otherwise; under
`STANDALONE` it is `false` when the wolfSSL call reports an error (returns
non-zero) and the output buffer otherwise. The buffer is never returned after
an error. -/
theorem decrypt_false_on_backend_error (B : Build) (e : ecdh) (k c : octet)
    (rest : List LuaValue) :
    (ecdh_decrypt { B with STANDALONE := false }
        ⟨.ecdh e :: .octet k :: .octet c :: rest⟩).values =
      (if (B.AES_CBC_IV0_DECRYPT k c ⟨0, c_int (c.len + 16), []⟩).1 = 0 then [.boolean false]
        else [.octet (B.AES_CBC_IV0_DECRYPT k c ⟨0, c_int (c.len + 16), []⟩).2]) ∧
    (ecdh_decrypt { B with STANDALONE := true }
        ⟨.ecdh e :: .octet k :: .octet c :: rest⟩).values =
      (if (B.wc_AesCbcEncryptWithKey [] c.val c.len k.val k.len (List.replicate 16 0)).1 ≠ 0
        then [.boolean false]
        else [.octet ⟨0, c_int (c.len + 16),
          (B.wc_AesCbcEncryptWithKey [] c.val c.len k.val k.len (List.replicate 16 0)).2⟩]) := by
  constructor
  · rw [ecdh_decrypt_eval]
    simp only [Bool.false_eq_true, if_false]
    split_ifs <;> exact values_ok_one_cons3 _ _ _ _ _
  · rw [ecdh_decrypt_eval]
    simp only [if_true]
    split_ifs <;> exact values_ok_one_cons3 _ _ _ _ _

/-! ## Claim C13 -/

/-- C14 (code at the failing input): under the wolfSSL build, `new("ed25519")`
hands back a keyring with `fieldsize` 64, `keygen()` on it succeeds and returns
two octets, and a following `checkpub()` returns true; but the public key
returned and stored has length 0, not `fieldsize`, because the key-pair
function of the backend writes nothing. -/
theorem keygen_public_key_is_empty :
    ∃ (e e1 : ecdh) (pk sk : octet) (L : lua_State),
      (lua_new_ecdh (stubBuild true) (stubEnv 0) ⟨[.string "ed25519"]⟩).values = [.ecdh e] ∧
      e.fieldsize = 64 ∧
      ecdh_keygen (stubBuild true) ⟨[.ecdh e]⟩ = .ok 2 L ∧
      (ecdh_keygen (stubBuild true) ⟨[.ecdh e]⟩).values = [.octet pk, .octet sk] ∧
      keyring L = some e1 ∧ e1.pubkey = some pk ∧
      pk.len = 0 ∧ pk.max = 64 ∧ pk.len ≠ e.fieldsize ∧
      (ecdh_checkpub (stubBuild true) ⟨[.ecdh e1]⟩).values = [.boolean true] :=
  ⟨_, _, _, _, _, rfl, rfl, rfl, rfl, rfl, rfl, rfl, rfl, by decide, rfl⟩

/-- C15: `checkpub()` without an argument raises "Public key not found."
(`NoPublicKey`) exactly when the keyring holds no public key; with a stored key,
or with an octet argument, it returns exactly one boolean, true exactly when
`ECP__PUBLIC_KEY_VALIDATE` on that key returns 0, and the stack below the
result, keyring included, is as it was. -/
theorem checkpub_protocol (B : Build) (e : ecdh) (args : List LuaValue) :
    (lua_isnoneornil ⟨.ecdh e :: args⟩ 2 = true →
      (e.pubkey = none ↔
        ecdh_checkpub B ⟨.ecdh e :: args⟩
          = .raised (.lerror "Public key not found.") ⟨.ecdh e :: args⟩) ∧
      (∀ pk, e.pubkey = some pk →
        ecdh_checkpub B ⟨.ecdh e :: args⟩ =
          .ok 1 ⟨.ecdh e :: (args ++
            [.boolean (decide (e.ECP__PUBLIC_KEY_VALIDATE pk = 0))])⟩)) ∧
    (lua_isnoneornil ⟨.ecdh e :: args⟩ 2 = false →
      ∀ o, o_arg 2 ⟨.ecdh e :: args⟩ = .ok o ⟨.ecdh e :: args⟩ →
        ecdh_checkpub B ⟨.ecdh e :: args⟩ =
          .ok 1 ⟨.ecdh e :: (args ++
            [.boolean (decide (e.ECP__PUBLIC_KEY_VALIDATE o = 0))])⟩) := by
  refine ⟨fun hn => ⟨?_, ?_⟩, ?_⟩
  · cases hp : e.pubkey with
    | none =>
      simp [ecdh_checkpub, bind, LuaM.bind, ecdh_arg_self, getL, hn, hp, lerror]
    | some pk =>
      by_cases hv : e.ECP__PUBLIC_KEY_VALIDATE pk = 0 <;>
      simp [ecdh_checkpub, bind, LuaM.bind, ecdh_arg_self, getL, hn, hp, pure, hv,
        lua_pushboolean, lua_push]
  · intro pk hp
    by_cases hv : e.ECP__PUBLIC_KEY_VALIDATE pk = 0 <;>
    simp [ecdh_checkpub, bind, LuaM.bind, ecdh_arg_self, getL, hn, hp, pure, hv,
      lua_pushboolean, lua_push]
  · intro hn o ho
    by_cases hv : e.ECP__PUBLIC_KEY_VALIDATE o = 0 <;>
    simp [ecdh_checkpub, bind, LuaM.bind, ecdh_arg_self, getL, hn, ho, pure, hv,
      lua_pushboolean, lua_push]

/-- Witness for C15: `checkpub()` on a fresh `ed25519` keyring raises, on one
that holds a public key it returns true, and so does `checkpub(o)` with an
octet (the validation of the wolfSSL backend accepts every octet). -/
theorem checkpub_protocol_witness :
    ecdh_checkpub (stubBuild true) ⟨[.ecdh (demoKeyring 0)]⟩
      = .raised (.lerror "Public key not found.") ⟨[.ecdh (demoKeyring 0)]⟩ ∧
    ecdh_checkpub (stubBuild true)
        ⟨[.ecdh { demoKeyring 0 with pubkey := some ⟨0, 64, []⟩ }]⟩
      = .ok 1 ⟨[.ecdh { demoKeyring 0 with pubkey := some ⟨0, 64, []⟩ }, .boolean true]⟩ ∧
    ecdh_checkpub (stubBuild true) ⟨[.ecdh (demoKeyring 0), .octet ⟨1, 1, [7]⟩]⟩
      = .ok 1 ⟨[.ecdh (demoKeyring 0), .octet ⟨1, 1, [7]⟩, .boolean true]⟩ :=
  ⟨((checkpub_protocol (stubBuild true) (demoKeyring 0) []).1 rfl).1.1 rfl,
    ((checkpub_protocol (stubBuild true)
      { demoKeyring 0 with pubkey := some ⟨0, 64, []⟩ } []).1 rfl).2 _ rfl,
    (checkpub_protocol (stubBuild true) (demoKeyring 0) [.octet ⟨1, 1, [7]⟩]).2 rfl _ rfl⟩

/-- C16 (code at the failing input): `kdf2(nil, key)` does not succeed: the
parameters are read with `o_arg(L, 2)`, which rejects `nil`, so the call raises
before any key is derived and nothing is pushed. (With an octet of parameters
and no length argument the derived key is requested with the length of the
input key, read back as a C `int`, as the claim says.) -/
theorem kdf2_nil_parameters_rejected (B : Build) (e : ecdh) (p k : octet)
    (rest : List LuaValue) :
    ecdh_kdf2 B ⟨.ecdh e :: .nil :: .octet k :: rest⟩
      = .raised (.TypeMismatch 2) ⟨.ecdh e :: .nil :: .octet k :: rest⟩ ∧
    (ecdh_kdf2 B ⟨.ecdh e :: .nil :: .octet k :: rest⟩).values = [] ∧
    ecdh_kdf2 B ⟨[.ecdh e, .octet p, .octet k]⟩
      = .ok 1 ⟨[.ecdh e, .octet p, .octet k,
          .octet (B.KDF2 e.hash p k (c_int k.len) ⟨0, c_int k.len, []⟩)]⟩ := by
  have h1 : ecdh_kdf2 B ⟨.ecdh e :: .nil :: .octet k :: rest⟩
      = .raised (.TypeMismatch 2) ⟨.ecdh e :: .nil :: .octet k :: rest⟩ := by
    simp [ecdh_kdf2, bind, LuaM.bind, ecdh_arg_self, o_arg, index2value]
  refine ⟨h1, ?_, ?_⟩
  · rw [h1]
    rfl
  · simp [ecdh_kdf2, bind, LuaM.bind, ecdh_arg_self, o_arg, index2value, luaL_optinteger,
      pure, o_new, store]

/-! ## Claims C17 and C18 -/

/-- C17: `umm_memory_manager` follows the Lua allocator protocol. With `ptr`
`NULL` and `nsize` non-zero it returns what `umm_malloc(nsize)` returns, that
being its only allocator call; with `ptr` `NULL` and `nsize` zero it returns
`NULL` and makes no call; with `ptr` non-`NULL` and `nsize` zero it calls
`umm_free(ptr)` once and returns `NULL`; with `ptr` non-`NULL` and `nsize`
non-zero it returns what `umm_realloc(ptr, nsize)` returns. The outcome does
not depend on `ud`, nor on `osize`. -/
theorem umm_memory_manager_protocol {H : Type} (U : umm H) (ud ptr osize nsize : Nat)
    (S : umm_heap H) :
    (ptr = NULL → nsize ≠ 0 →
      umm_memory_manager U ud ptr osize nsize S =
        ((U.umm_malloc nsize S.heap).1,
          { heap := (U.umm_malloc nsize S.heap).2, calls := S.calls ++ [.malloc nsize] })) ∧
    (ptr = NULL → nsize = 0 → umm_memory_manager U ud ptr osize nsize S = (NULL, S)) ∧
    (ptr ≠ NULL → nsize = 0 →
      umm_memory_manager U ud ptr osize nsize S =
        (NULL, { heap := U.umm_free ptr S.heap, calls := S.calls ++ [.free ptr] })) ∧
    (ptr ≠ NULL → nsize ≠ 0 →
      umm_memory_manager U ud ptr osize nsize S =
        ((U.umm_realloc ptr nsize S.heap).1,
          { heap := (U.umm_realloc ptr nsize S.heap).2,
            calls := S.calls ++ [.realloc ptr nsize] })) ∧
    (∀ ud1 osize1 : Nat,
      umm_memory_manager U ud1 ptr osize1 nsize S = umm_memory_manager U ud ptr osize nsize S) := by
  refine ⟨?_, ?_, ?_, ?_, ?_⟩
  · intro hp hn
    simp [umm_memory_manager, hp, hn]
  · intro hp hn
    simp [umm_memory_manager, hp, hn]
  · intro hp hn
    simp [umm_memory_manager, hp, hn]
  · intro hp hn
    unfold umm_memory_manager
    rw [if_neg hp, if_neg hn]
    split_ifs <;> rfl
  · intro ud1 osize1
    unfold umm_memory_manager
    split_ifs <;> rfl

/-- Witness for C17: the four cases on an allocator that counts its calls. -/
theorem umm_memory_manager_protocol_witness :
    umm_memory_manager (H := Nat)
        ⟨fun n h => (n + 8, h + 1), fun p n h => (p + n, h + 1), fun _ h => h + 1⟩
        7 NULL 0 16 ⟨0, []⟩ = (24, ⟨1, [.malloc 16]⟩) ∧
    umm_memory_manager (H := Nat)
        ⟨fun n h => (n + 8, h + 1), fun p n h => (p + n, h + 1), fun _ h => h + 1⟩
        7 NULL 0 0 ⟨0, []⟩ = (NULL, ⟨0, []⟩) ∧
    umm_memory_manager (H := Nat)
        ⟨fun n h => (n + 8, h + 1), fun p n h => (p + n, h + 1), fun _ h => h + 1⟩
        7 24 16 0 ⟨1, [.malloc 16]⟩ = (NULL, ⟨2, [.malloc 16, .free 24]⟩) ∧
    umm_memory_manager (H := Nat)
        ⟨fun n h => (n + 8, h + 1), fun p n h => (p + n, h + 1), fun _ h => h + 1⟩
        7 24 16 32 ⟨1, [.malloc 16]⟩ = (56, ⟨2, [.malloc 16, .realloc 24 32]⟩) :=
  ⟨(umm_memory_manager_protocol _ 7 NULL 0 16 ⟨0, []⟩).1 rfl (by decide),
   (umm_memory_manager_protocol _ 7 NULL 0 0 ⟨0, []⟩).2.1 rfl rfl,
   (umm_memory_manager_protocol _ 7 24 16 0 ⟨1, [.malloc 16]⟩).2.2.1 (by decide) rfl,
   (umm_memory_manager_protocol _ 7 24 16 32 ⟨1, [.malloc 16]⟩).2.2.2.1 (by decide)
     (by decide)⟩

/-- C18 (code at the failing input): with a 4-byte buffer at position 0,
printing the two strings `abcdefgh` and `x` returns 1 and ends with
`stdout_pos` 10, past `stdout_len`; the tab before the second string is stored
at offset 8 and the second string at offsets 9 and 10, all outside the buffer. -/
theorem print_tobuffer_overruns :
    (lua_print_tobuffer ⟨⟨true, 4, 0⟩, []⟩ ["abcdefgh".toList, "x".toList]).2 = 1 ∧
    (lua_print_tobuffer ⟨⟨true, 4, 0⟩, []⟩ ["abcdefgh".toList, "x".toList]).1.Z
      = ⟨true, 4, 10⟩ ∧
    (lua_print_tobuffer ⟨⟨true, 4, 0⟩, []⟩ ["abcdefgh".toList, "x".toList]).1.writes
      = [(0, 97), (1, 98), (2, 99), (3, 0), (8, 9), (9, 120), (10, 0)] ∧
    ¬ (∀ w ∈ (lua_print_tobuffer ⟨⟨true, 4, 0⟩, []⟩
          ["abcdefgh".toList, "x".toList]).1.writes, w.1 < 4) ∧
    ¬ ((lua_print_tobuffer ⟨⟨true, 4, 0⟩, []⟩ ["abcdefgh".toList, "x".toList]).1.Z.stdout_pos
        ≤ 4) := by
  decide

/-! ## Claims C19 and C20 -/

/-- A value within the range of `int` is its own conversion. -/
theorem c_int_of_range (x : Int) (h1 : -2 ^ 31 ≤ x) (h2 : x < 2 ^ 31) : c_int x = x := by
  unfold c_int
  omega

/-- C19 (counterexample): for a message of length `INT_MAX = 2147483647`, whose
length rounded up to a multiple of 16 is 2147483648, the sum `in->len + 0x0f`
wraps around and `encrypt` asks for a buffer of capacity `-2147483634`, below
the rounded-up length. -/
theorem encrypt_capacity_overflows :
    ecdh_encrypt (stubBuild false)
        ⟨[.ecdh (demoKeyring 0), .octet ⟨1, 1, [7]⟩, .octet ⟨2147483647, 2147483647, []⟩]⟩
      = .ok 1 ⟨[.ecdh (demoKeyring 0), .octet ⟨1, 1, [7]⟩,
          .octet ⟨2147483647, 2147483647, []⟩, .octet ⟨0, -2147483634, []⟩]⟩ ∧
    (16 : Int) ∣ 2147483648 ∧ (2147483647 : Int) ≤ 2147483648 ∧
    (∀ r1 : Int, 16 ∣ r1 → 2147483647 ≤ r1 → 2147483648 ≤ r1) ∧
    ¬ ((2147483648 : Int) ≤ (⟨0, -2147483634, []⟩ : octet).max) := by
  refine ⟨?_, by decide, by decide, fun r1 h1 h2 => ?_, by decide⟩
  · rw [show ([.ecdh (demoKeyring 0), .octet ⟨1, 1, [7]⟩,
        .octet ⟨2147483647, 2147483647, []⟩] : List LuaValue)
          = .ecdh (demoKeyring 0) :: .octet ⟨1, 1, [7]⟩ ::
            .octet ⟨2147483647, 2147483647, []⟩ :: [] from rfl, ecdh_encrypt_eval]
    rfl
  · omega

/-- C19 (amended): for a message of length `n` with `0 ≤ n ≤ INT_MAX - 15`,
the buffer `encrypt` allocates has length 0 and capacity `n + 15`, and `n`
rounded up to the next multiple of 16 (the least multiple `r` of 16 with
`n ≤ r`) is at most that capacity. With the curve library, when the CBC
primitive follows the contract of the spec (ciphertext of length `r`, writes
clamped to the capacity), the octet returned is what the primitive made of that
buffer and has the full length `r`: nothing is cut. Under `STANDALONE` the
buffer handed to wolfSSL, and returned when the call reports success, is that
same buffer. -/
theorem encrypt_capacity_fits (B : Build) (e : ecdh) (k m : octet) (rest : List LuaValue)
    (r : Int) (h0 : 0 ≤ m.len) (hmax : m.len ≤ 2147483647 - 15)
    (hr : 16 ∣ r) (_hle : m.len ≤ r)
    (hmin : ∀ r1 : Int, 16 ∣ r1 → m.len ≤ r1 → r ≤ r1) :
    ∃ out : octet, out.len = 0 ∧ out.max = m.len + 15 ∧ out.val = [] ∧ r ≤ out.max ∧
      ecdh_encrypt { B with STANDALONE := false } ⟨.ecdh e :: .octet k :: .octet m :: rest⟩
        = .ok 1 ⟨.ecdh e :: .octet k :: .octet m ::
            (rest ++ [.octet (B.AES_CBC_IV0_ENCRYPT k m out)])⟩ ∧
      (cbc_writes B k m r → (B.AES_CBC_IV0_ENCRYPT k m out).len = r) ∧
      ((B.wc_AesCbcEncryptWithKey [] m.val m.len k.val k.len (List.replicate 16 0)).1 = 0 →
        ecdh_encrypt { B with STANDALONE := true } ⟨.ecdh e :: .octet k :: .octet m :: rest⟩
          = .ok 1 ⟨.ecdh e :: .octet k :: .octet m ::
              (rest ++ [.octet { out with val :=
                (B.wc_AesCbcEncryptWithKey [] m.val m.len k.val k.len
                  (List.replicate 16 0)).2 }])⟩) := by
  have hc : c_int (m.len + 15) = m.len + 15 := c_int_of_range _ (by omega) (by omega)
  have hfit : r ≤ m.len + 15 := by
    have h1 := hmin ((m.len + 15) / 16 * 16) (Dvd.intro_left _ rfl) (by omega)
    omega
  refine ⟨⟨0, m.len + 15, []⟩, rfl, rfl, rfl, hfit, ?_, fun hcbc => ?_, fun hrc => ?_⟩
  · rw [ecdh_encrypt_eval, hc]
    simp
  · rw [hcbc]
    exact min_eq_left hfit
  · rw [ecdh_encrypt_eval, hc]
    simp only [if_true, ne_eq, hrc, not_true_eq_false, if_false]

/-- Witness for C19 (amended): a 3-byte message, whose padded length is 16,
with a CBC primitive that rounds up and clamps. -/
theorem encrypt_capacity_fits_witness :
    ∃ out : octet, out.len = 0 ∧ out.max = 18 ∧ out.val = [] ∧ (16 : Int) ≤ out.max ∧
      ecdh_encrypt blockBuild
          ⟨[.ecdh (demoKeyring 0), .octet ⟨1, 1, [7]⟩, .octet ⟨3, 3, [1, 2, 3]⟩]⟩
        = .ok 1 ⟨[.ecdh (demoKeyring 0), .octet ⟨1, 1, [7]⟩, .octet ⟨3, 3, [1, 2, 3]⟩,
            .octet ⟨16, 18, []⟩]⟩ ∧
      cbc_writes blockBuild ⟨1, 1, [7]⟩ ⟨3, 3, [1, 2, 3]⟩ 16 ∧
      (blockBuild.AES_CBC_IV0_ENCRYPT ⟨1, 1, [7]⟩ ⟨3, 3, [1, 2, 3]⟩ out).len = 16 := by
  have hcbc : cbc_writes blockBuild ⟨1, 1, [7]⟩ ⟨3, 3, [1, 2, 3]⟩ 16 := fun _ => rfl
  obtain ⟨out, h1, h2, h3, h4, h5, h6, -⟩ :=
    encrypt_capacity_fits blockBuild (demoKeyring 0) ⟨1, 1, [7]⟩ ⟨3, 3, [1, 2, 3]⟩ [] 16
      (by decide) (by decide) (by decide) (by decide) (fun r1 h1 h2 => by
        have h3 : (3 : Int) ≤ r1 := h2
        omega)
  obtain ⟨ol, om, ov⟩ := out
  simp only at h1 h2 h3
  subst h1 h3
  have hm : om = 18 := h2
  subst hm
  exact ⟨_, rfl, rfl, rfl, h4, h5, hcbc, h6 hcbc⟩

/-- The four timestamp bytes of the seed, as quotients and remainders. -/
theorem ecdh_seed_eq (W : Env) :
    ecdh_seed W = List.ofFn (W.randombytes 252) ++
      [ W.GET_TIME % 2 ^ 32 / 2 ^ 24 % 256, W.GET_TIME % 2 ^ 32 / 2 ^ 16 % 256,
        W.GET_TIME % 2 ^ 32 / 2 ^ 8 % 256, W.GET_TIME % 2 ^ 32 % 256 ] := by
  have hm : ∀ x : Nat, x &&& 0xff = x % 256 := fun x =>
    Nat.and_pow_two_sub_one_eq_mod x 8
  simp only [ecdh_seed, hm, Nat.shiftRight_eq_div_pow]

theorem ecdh_seed_drop (W : Env) :
    (ecdh_seed W).drop 252 =
      [ W.GET_TIME % 2 ^ 32 / 2 ^ 24 % 256, W.GET_TIME % 2 ^ 32 / 2 ^ 16 % 256,
        W.GET_TIME % 2 ^ 32 / 2 ^ 8 % 256, W.GET_TIME % 2 ^ 32 % 256 ] := by
  rw [ecdh_seed_eq]
  have hl : (List.ofFn (W.randombytes 252)).length = 252 := List.length_ofFn _
  rw [List.drop_append_of_le_length (le_of_eq hl.symm), List.drop_of_length_le (le_of_eq hl)]
  rfl

/-- C20: the seed `ecdh_new` builds is 256 bytes long; bytes 0..251 are the
252 bytes of `randombytes`, bytes 252..255 are the 32-bit `GET_TIME()` value
most significant byte first; the timestamp is recovered from the last four
bytes; two seeds built from different 32-bit timestamps differ, whatever the
entropy; and with `STANDALONE` off this seed is what `RAND_seed` receives for
the generator of the new keyring. -/
theorem seed_layout (W : Env) :
    (ecdh_seed W).length = 256 ∧
    (ecdh_seed W).take 252 = List.ofFn (W.randombytes 252) ∧
    (ecdh_seed W).drop 252 =
      [ W.GET_TIME % 2 ^ 32 / 2 ^ 24 % 256, W.GET_TIME % 2 ^ 32 / 2 ^ 16 % 256,
        W.GET_TIME % 2 ^ 32 / 2 ^ 8 % 256, W.GET_TIME % 2 ^ 32 % 256 ] ∧
    (∀ b0 b1 b2 b3 : Nat, (ecdh_seed W).drop 252 = [b0, b1, b2, b3] →
      b0 * 2 ^ 24 + b1 * 2 ^ 16 + b2 * 2 ^ 8 + b3 = W.GET_TIME % 2 ^ 32) ∧
    (∀ W2 : Env, W.GET_TIME % 2 ^ 32 ≠ W2.GET_TIME % 2 ^ 32 → ecdh_seed W ≠ ecdh_seed W2) ∧
    (∀ (B : Build) (L : lua_State), ∃ k : ecdh,
      ecdh_new { B with STANDALONE := false } W "ed25519".toList L
        = .ok (some k) ⟨L.stack ++ [.ecdh k]⟩ ∧
      k.rng = some (B.RAND_seed 256 (ecdh_seed W))) := by
  have hl : (List.ofFn (W.randombytes 252)).length = 252 := List.length_ofFn _
  have rec4 : ∀ t b0 b1 b2 b3 : Nat, t < 2 ^ 32 →
      [t / 2 ^ 24 % 256, t / 2 ^ 16 % 256, t / 2 ^ 8 % 256, t % 256] = [b0, b1, b2, b3] →
      b0 * 2 ^ 24 + b1 * 2 ^ 16 + b2 * 2 ^ 8 + b3 = t := by
    intro t b0 b1 b2 b3 ht h
    simp only [List.cons.injEq, and_true] at h
    obtain ⟨h0, h1, h2, h3⟩ := h
    omega
  refine ⟨?_, ?_, ecdh_seed_drop W, ?_, ?_, ?_⟩
  · rw [ecdh_seed_eq, List.length_append, hl]
    rfl
  · rw [ecdh_seed_eq, List.take_append_of_le_length (le_of_eq hl.symm),
      List.take_of_length_le (le_of_eq hl)]
  · intro b0 b1 b2 b3 h
    rw [ecdh_seed_drop] at h
    exact rec4 _ b0 b1 b2 b3 (Nat.mod_lt _ (by norm_num)) h
  · intro W2 hne heq
    apply hne
    have h1 := ecdh_seed_drop W
    rw [heq, ecdh_seed_drop] at h1
    have h2 := rec4 (W2.GET_TIME % 2 ^ 32) _ _ _ _ (Nat.mod_lt _ (by norm_num)) h1
    have h3 := rec4 (W.GET_TIME % 2 ^ 32) _ _ _ _ (Nat.mod_lt _ (by norm_num)) rfl
    omega
  · intro B L
    have hc : curve_supported "ed25519".toList = true := by decide
    refine ⟨{ ecdh_curve25519 B "ed25519".toList with
                rng := some (B.RAND_seed 256 (ecdh_seed W)), seckey := none,
                seclen := B.CURVE25519_KEYSIZE,
                pubkey := none, publen := B.CURVE25519_KEYSIZE * 2 }, ?_, rfl⟩
    rw [ecdh_new]
    simp only [bind, LuaM.bind, ecdh_new_curve_eval, hc, if_true, pure, store,
      Bool.false_eq_true, if_false]
    simp [ecdh_curve25519]

/-! ## Claim C21 -/

/-- Where the backend validation of `k` returns only 0 or
`ECDH_INVALID_PUBLIC_KEY` (a non-zero code), the two tests agree: `public(k)`
stores `k` exactly when `checkpub(k)` returns true. -/
theorem public_iff_checkpub_of_two_codes (B : Build) (e : ecdh) (k : octet)
    (rest : List LuaValue) (hp : e.pubkey = none) (hI : ECDH_INVALID_PUBLIC_KEY B ≠ 0)
    (h2 : e.ECP__PUBLIC_KEY_VALIDATE k = 0 ∨
      e.ECP__PUBLIC_KEY_VALIDATE k = ECDH_INVALID_PUBLIC_KEY B) :
    ecdh_public B ⟨.ecdh e :: .octet k :: rest⟩
        = .ok 0 ⟨.ecdh { e with pubkey := some k } :: .octet k :: rest⟩ ↔
      ecdh_checkpub B ⟨.ecdh e :: .octet k :: rest⟩
        = .ok 1 ⟨.ecdh e :: .octet k :: (rest ++ [.boolean true])⟩ := by
  rw [ecdh_checkpub_eval_octet, ecdh_public_eval_octet, if_neg (by simp [hp])]
  rcases h2 with h | h
  · rw [if_neg (by rw [h]; exact fun h1 => hI h1.symm)]
    simp [h]
  · rw [if_pos h]
    simp [h, hI]

/-- C21 (code at the failing input): on a keyring with no public key, when the
backend validation of `k` returns a code that is neither 0 nor
`ECDH_INVALID_PUBLIC_KEY`, `checkpub(k)` returns false, yet `public(k)` accepts
`k` and stores it as the public key, and `session(k)` accepts `k` as the peer
key and returns a session octet. -/
theorem public_accepts_what_checkpub_rejects (B : Build) (e : ecdh) (k : octet)
    (rest : List LuaValue) (hp : e.pubkey = none)
    (h0 : e.ECP__PUBLIC_KEY_VALIDATE k ≠ 0)
    (hi : e.ECP__PUBLIC_KEY_VALIDATE k ≠ ECDH_INVALID_PUBLIC_KEY B) :
    ecdh_checkpub B ⟨.ecdh e :: .octet k :: rest⟩
      = .ok 1 ⟨.ecdh e :: .octet k :: (rest ++ [.boolean false])⟩ ∧
    ecdh_public B ⟨.ecdh e :: .octet k :: rest⟩
      = .ok 0 ⟨.ecdh { e with pubkey := some k } :: .octet k :: rest⟩ ∧
    ecdh_session B ⟨.ecdh e :: .octet k :: rest⟩
      = .ok 1 ⟨.ecdh e :: .octet k ::
          (rest ++ [.octet (e.ECP__SVDP_DH e.seckey k ⟨0, e.keysize, []⟩).2])⟩ := by
  refine ⟨?_, ?_, ?_⟩
  · rw [ecdh_checkpub_eval_octet, decide_eq_false h0]
  · rw [ecdh_public_eval_octet, if_neg (by simp [hp]), if_neg hi]
  · rw [ecdh_session_eval_octet, if_neg hi]

/-- Witness for C21: a fresh `ed25519` keyring whose backend validation
returns `-1`, and a key of one byte. -/
theorem public_accepts_what_checkpub_rejects_witness :
    erringKeyring.pubkey = none ∧
    erringKeyring.ECP__PUBLIC_KEY_VALIDATE ⟨1, 1, [7]⟩ ≠ 0 ∧
    erringKeyring.ECP__PUBLIC_KEY_VALIDATE ⟨1, 1, [7]⟩
      ≠ ECDH_INVALID_PUBLIC_KEY (stubBuild true) ∧
    (ecdh_checkpub (stubBuild true) ⟨[.ecdh erringKeyring, .octet ⟨1, 1, [7]⟩]⟩).values
      = [.boolean false] ∧
    (∃ e1, keyring (ecdh_public (stubBuild true)
        ⟨[.ecdh erringKeyring, .octet ⟨1, 1, [7]⟩]⟩).state = some e1 ∧
      e1.pubkey = some ⟨1, 1, [7]⟩) ∧
    (ecdh_session (stubBuild true) ⟨[.ecdh erringKeyring, .octet ⟨1, 1, [7]⟩]⟩).values
      = [.octet ⟨0, 32, []⟩] :=
  have h := public_accepts_what_checkpub_rejects (stubBuild true) erringKeyring ⟨1, 1, [7]⟩ []
    rfl (by decide) (by decide)
  ⟨rfl, by decide, by decide, by rw [h.1]; rfl, ⟨_, by rw [h.2.1]; rfl, rfl⟩,
    by rw [h.2.2]; rfl⟩

end Zenroom
